import Mathlib

/-!
# Snowflakes: particle store and simulation step

A shallow embedding of `setupSnowflakes` and `update` from `src/main.cpp`.

Modelling conventions.
* C `int` values are `Int`; the C operators `%` and `/` on `int` are the truncating
  `Int.tmod` and `Int.tdiv`. The `int` sum of line 315 wraps at 32 bits (`wrapInt32`); every
  other `int` result stays far below `2^31` in the statements made.
* `rand()` is the C library generator. It returns an `int` in `[0, RAND_MAX]`; the stream of
  values it will return is a function `Nat → Nat` together with the number of draws made so far.
* `glm::sin (2 * glm::radians a)` is a library function of the angle `a` with an irrational
  value in general; it is a parameter `sin2 : ℚ → ℚ` of the simulation step.
* The global `vector<Snowflake> snowflakes` and the generator state form the `World`.
* A C `float` or `double` value is a rational number, so every value is finite: infinities and
  NaN are not values of the model. The conversions of the `int` scale to `float` in lines 313
  and 315 round as the machine does (`intToFloat`).
* `update` is rendered twice. In `update` the floating-point operations are exact; it carries
  the statements that do not depend on a rounded value. In `updateR` the result of every
  floating-point operation passes through a rounding function; IEEE rounding to nearest is one
  such function (`Rounding.ieee`), and with no rounding `updateR` is `update`
  (`updateBodyR_exact`).
-/

namespace Snowflakes

/-! ## Constants (main.cpp lines 18-34) -/

def SCREEN_WIDTH : Int := 800
def SCREEN_HEIGHT : Int := 600
def NUM_SNOWFLAKES : Nat := 500
def BITMAP_NUM_TEXTURES_PER_COL : Int := 16
def BITMAP_NUM_TEXTURES_PER_ROW : Int := 16

/-- The `glm::vec3` of three floats. -/
structure Vec3 where
  x : ℚ
  y : ℚ
  z : ℚ
deriving DecidableEq

/-- Component-wise sum, `glm::vec3::operator+`. -/
def Vec3.add (a b : Vec3) : Vec3 := ⟨a.x + b.x, a.y + b.y, a.z + b.z⟩

/-- Scalar multiple, `float * glm::vec3`. -/
def Vec3.smul (k : ℚ) (a : Vec3) : Vec3 := ⟨k * a.x, k * a.y, k * a.z⟩

def GRAVITY : Vec3 := ⟨0, -250, 0⟩

/-- Conversion of a float to `int`: the fractional part is discarded (rounding toward zero). -/
def floatToInt (q : ℚ) : Int := Int.tdiv q.num (q.den : Int)

/-- The line `const int AIR_RESISTANCE_FACTOR = 3 * GRAVITY.y / 4;`: a float expression stored
in an `int`. -/
def AIR_RESISTANCE_FACTOR : Int := floatToInt (3 * GRAVITY.y / 4)

def NUM_SCALES : Int := 10
def MIN_SNOWFLAKE_SCALE : Int := 4
def MIN_ROTATE_SPEED : Int := 5

/-! ## Data model (main.cpp lines 45-56) -/

/-- The `struct Snowflake`. -/
structure Snowflake where
  pos : Vec3
  scale : Int
  rotationAngle : ℚ
  rotationSpeed : ℚ
  textureCoords : List ℚ
deriving DecidableEq

/-- The constructor `Snowflake(pos, scale, angle, rotSpeed)`; it leaves the eight
`textureCoords` unset (here: zero) until they are copied in. -/
def Snowflake.ctor (pos : Vec3) (scale : Int) (angle rotSpeed : ℚ) : Snowflake :=
  ⟨pos, scale, angle, rotSpeed, List.replicate 8 0⟩

/-- State of the C library generator: the values `rand()` will return, and how many were
already taken. -/
structure Rng where
  draws : Nat → Nat
  next : Nat

/-- One call of `rand()`: the value returned and the generator afterwards. -/
def rand (g : Rng) : Int × Rng := ((g.draws g.next : Int), ⟨g.draws, g.next + 1⟩)

/-- The mutable program state the simulation touches: the global vector `snowflakes` and the
generator behind `rand()`. -/
structure World where
  snowflakes : List Snowflake
  rng : Rng

/-- The state in which `main` calls `setupSnowflakes`: the global vector is still empty. -/
def World.start (g : Rng) : World := ⟨[], g⟩

/-! ## setupSnowflakes (main.cpp lines 236-271) -/

def textureWidth : ℚ := 1 / (BITMAP_NUM_TEXTURES_PER_COL : ℚ)
def textureHeight : ℚ := 1 / (BITMAP_NUM_TEXTURES_PER_ROW : ℚ)

/-- The rotation speed after the minimum speed was added (lines 244-248), from the value
`rand()` returned. -/
def biasedRotationSpeed (r : Int) : Int :=
  let rotationSpeed := Int.tmod r 41 - 20
  if rotationSpeed < 0 then rotationSpeed - MIN_ROTATE_SPEED
  else rotationSpeed + MIN_ROTATE_SPEED

/-- The array `texCoords` of lines 252-261 for loop index `i`. -/
def texCoords (i : Int) : List ℚ :=
  let textureIndex := Int.tmod i 256
  let texX : ℚ := ((Int.tmod textureIndex BITMAP_NUM_TEXTURES_PER_COL : Int) : ℚ) * textureWidth
  let texY : ℚ := ((Int.tdiv textureIndex BITMAP_NUM_TEXTURES_PER_ROW : Int) : ℚ) * textureHeight
  [texX, texY + textureHeight,
   texX + textureWidth, texY + textureHeight,
   texX + textureWidth, texY,
   texX, texY]

/-- The scale chosen by lines 263-265 from the two values `rand()` returned: the band roll
`roll` and the size draw `r`. -/
def chooseScale (roll r : Int) : Int :=
  if Int.tmod roll 10 < 9 then Int.tmod r NUM_SCALES + MIN_SNOWFLAKE_SCALE
  else Int.tmod r NUM_SCALES + (NUM_SCALES + MIN_SNOWFLAKE_SCALE)

/-- The snowflake built by one pass of the loop body for index `i`, from a generator state. The
five calls of `rand()` happen in source order: x, y, rotation speed, band roll, size. -/
def newSnowflake (i : Int) (g : Rng) : Snowflake × Rng :=
  let r0 := rand g
  let x : Int := Int.tmod r0.1 SCREEN_WIDTH
  let r1 := rand r0.2
  let y : Int := Int.tmod r1.1 SCREEN_HEIGHT
  let r2 := rand r1.2
  let rotationSpeed : Int := biasedRotationSpeed r2.1
  let r3 := rand r2.2
  let r4 := rand r3.2
  let scale : Int := chooseScale r3.1 r4.1
  let s := Snowflake.ctor ⟨(x : ℚ), (y : ℚ), 0⟩ scale 0 (rotationSpeed : ℚ)
  ({ s with textureCoords := texCoords i }, r4.2)

/-- One pass of the loop body: build the snowflake and `push_back` it. -/
def setupBody (i : Int) (w : World) : World :=
  let r := newSnowflake i w.rng
  ⟨w.snowflakes ++ [r.1], r.2⟩

/-- The loop `for (int i = 0; i < NUM_SNOWFLAKES; ++i)`, with `n` passes left and the index at
`i`. -/
def setupLoop : Nat → Nat → World → World
  | 0, _, w => w
  | n + 1, i, w => setupLoop n (i + 1) (setupBody (i : Int) w)

def setupSnowflakes (w : World) : World := setupLoop NUM_SNOWFLAKES 0 w

/-! ## Machine arithmetic used by update -/

/-- The value an `int` addition leaves in a 32-bit `int`: the exact sum wrapped to
`[-2^31, 2^31)` (two's complement). -/
def wrapInt32 (n : Int) : Int := (n + 2147483648) % 4294967296 - 2147483648

/-- The integer nearest to `z`, the even one when two are equally near. -/
def nearestEven (z : ℚ) : Int :=
  if z - ⌊z⌋ < 1 / 2 then ⌊z⌋
  else if 1 / 2 < z - ⌊z⌋ then ⌊z⌋ + 1
  else if ⌊z⌋ % 2 = 0 then ⌊z⌋
  else ⌊z⌋ + 1

/-- The unit in the last place of a binary floating-point format with `q + 1` significant bits
at a positive `x`: `2^(e - q)` for `2^e <= x < 2^(e+1)`. -/
def ulp (q : Nat) (x : ℚ) : ℚ := 2 ^ (Int.log 2 x - (q : Int))

/-- Rounding of a positive `x` to `q + 1` significant bits, to nearest, ties to even. -/
def roundPos (q : Nat) (x : ℚ) : ℚ := (nearestEven (x / ulp q x) : ℚ) * ulp q x

/-- Rounding to `q + 1` significant bits, to nearest, ties to even. The exponent is not
bounded: this is IEEE rounding for results within the normal range of the format. -/
def roundBits (q : Nat) (x : ℚ) : ℚ :=
  if 0 < x then roundPos q x else if x < 0 then -roundPos q (-x) else 0

/-- Conversion of an `int` to `float`: the integer rounded to 24 significant bits, so exact up
to `2^24` in magnitude. -/
def intToFloat (n : Int) : ℚ := roundBits 23 (n : ℚ)

/-- The value of `deltaTime` at line 361 of `main`: the difference of two `Uint32` tick counts,
itself a `Uint32`, divided by 1000. -/
def frameDelta (ticks : Nat) : ℚ := ((ticks % 4294967296 : Nat) : ℚ) / 1000

/-! ## update (main.cpp lines 304-319) -/

/-- The local `maxScale` of `update`. -/
def maxScale : Int := 2 * NUM_SCALES - 1

/-- The y component of `vel` after line 309, for a snowflake of the given scale. -/
def velY (scale : Int) : ℚ :=
  GRAVITY.y -
    (1 - ((scale - MIN_SNOWFLAKE_SCALE : Int) : ℚ) / ((maxScale : Int) : ℚ)) *
      ((AIR_RESISTANCE_FACTOR : Int) : ℚ)

/-- The vector `vel` after lines 308-309. -/
def fallVelocity (scale : Int) : Vec3 := { GRAVITY with y := velY scale }

/-- The test of line 313, "reset position if off screen"; the `int` scale is converted to
`float` for each comparison. -/
def offScreen (s : Snowflake) : Prop :=
  s.pos.y + intToFloat s.scale ≤ 0 ∨ s.pos.x + intToFloat s.scale < 0 ∨
    s.pos.x - intToFloat s.scale > (SCREEN_WIDTH : ℚ)

instance (s : Snowflake) : Decidable (offScreen s) :=
  inferInstanceAs (Decidable (s.pos.y + intToFloat s.scale ≤ 0 ∨
    s.pos.x + intToFloat s.scale < 0 ∨ s.pos.x - intToFloat s.scale > (SCREEN_WIDTH : ℚ)))

/-- The snowflake after lines 308-311: fall, then horizontal sway. -/
def moved (sin2 : ℚ → ℚ) (delta : ℚ) (s : Snowflake) : Snowflake :=
  let vel := fallVelocity s.scale
  let s1 : Snowflake := { s with pos := Vec3.add s.pos (Vec3.smul delta vel) }
  { s1 with pos := { s1.pos with
      x := s1.pos.x + 3 / 4 * s1.rotationSpeed * sin2 s1.rotationAngle * delta } }

/-- The snowflake after lines 313-316: the position is reset, with one call of `rand()`, when
the snowflake is off screen. Line 315 adds two `int`s, so the sum wraps at 32 bits, and stores
the result in a `float`. -/
def respawned (s : Snowflake) (g : Rng) : Snowflake × Rng :=
  if offScreen s then
    ({ s with pos := { s.pos with
        x := ((Int.tmod (rand g).1 SCREEN_WIDTH : Int) : ℚ)
        y := intToFloat (wrapInt32 (s.scale + SCREEN_HEIGHT)) } }, (rand g).2)
  else (s, g)

/-- One pass of the loop body of `update` on one snowflake. -/
def updateBody (sin2 : ℚ → ℚ) (delta : ℚ) (s : Snowflake) (g : Rng) : Snowflake × Rng :=
  let r := respawned (moved sin2 delta s) g
  ({ r.1 with rotationAngle := r.1.rotationAngle + r.1.rotationSpeed * delta }, r.2)

/-- The loop `for (auto &s : snowflakes)`, in order, threading the generator. -/
def updateLoop (sin2 : ℚ → ℚ) (delta : ℚ) : List Snowflake → Rng → List Snowflake × Rng
  | [], g => ([], g)
  | s :: rest, g =>
    let r := updateBody sin2 delta s g
    let t := updateLoop sin2 delta rest r.2
    (r.1 :: t.1, t.2)

def update (sin2 : ℚ → ℚ) (delta : ℚ) (w : World) : World :=
  let r := updateLoop sin2 delta w.snowflakes w.rng
  ⟨r.1, r.2⟩

/-! ## update with rounding (main.cpp lines 304-319)

The same code, with the result of every floating-point operation passed through a rounding
function: `fl` for an operation on `float`s, `dl` for an operation on `double`s (the literal
`0.75` of line 311 makes that product and the following sum `double`). Every conversion of an
`int` to `float` is `intToFloat`, and the two `int` operations wrap at 32 bits. -/

/-- The rounding of exact results to the stored `float` (`fl`) and `double` (`dl`). -/
structure Rounding where
  fl : ℚ → ℚ
  dl : ℚ → ℚ

/-- Arithmetic without rounding. -/
def Rounding.exact : Rounding := ⟨fun x => x, fun x => x⟩

/-- IEEE arithmetic: `float` has 24 significant bits, `double` has 53. -/
def Rounding.ieee : Rounding := ⟨roundBits 23, roundBits 52⟩

/-- The properties of IEEE rounding to nearest the proofs rely on: rounding to `float` is
monotone and leaves a `float` unchanged, and the integers up to `2^24` in magnitude are
`float`s and `double`s. -/
def Rounding.Valid (r : Rounding) : Prop :=
  (∀ x y : ℚ, x ≤ y → r.fl x ≤ r.fl y) ∧
  (∀ x : ℚ, r.fl (r.fl x) = r.fl x) ∧
  (∀ n : Int, |n| ≤ 16777216 → r.fl (n : ℚ) = (n : ℚ)) ∧
  (∀ n : Int, |n| ≤ 16777216 → r.dl (n : ℚ) = (n : ℚ))

/-- The y component of `vel` after line 309, each operation rounded. -/
def velYR (r : Rounding) (scale : Int) : ℚ :=
  r.fl (GRAVITY.y -
    r.fl (r.fl (1 - r.fl (intToFloat (wrapInt32 (scale - MIN_SNOWFLAKE_SCALE)) /
      intToFloat maxScale)) * intToFloat AIR_RESISTANCE_FACTOR))

/-- The vector `vel` after lines 308-309. -/
def fallVelocityR (r : Rounding) (scale : Int) : Vec3 := { GRAVITY with y := velYR r scale }

/-- Component-wise sum of two `glm::vec3`, each component rounded. -/
def Vec3.addR (r : Rounding) (a b : Vec3) : Vec3 :=
  ⟨r.fl (a.x + b.x), r.fl (a.y + b.y), r.fl (a.z + b.z)⟩

/-- Scalar multiple `float * glm::vec3`, each component rounded. -/
def Vec3.smulR (r : Rounding) (k : ℚ) (a : Vec3) : Vec3 :=
  ⟨r.fl (k * a.x), r.fl (k * a.y), r.fl (k * a.z)⟩

/-- The test of line 313 as evaluated: each sum is rounded before it is compared. -/
def offScreenR (r : Rounding) (s : Snowflake) : Prop :=
  r.fl (s.pos.y + intToFloat s.scale) ≤ 0 ∨ r.fl (s.pos.x + intToFloat s.scale) < 0 ∨
    r.fl (s.pos.x - intToFloat s.scale) > intToFloat SCREEN_WIDTH

instance (r : Rounding) (s : Snowflake) : Decidable (offScreenR r s) :=
  inferInstanceAs (Decidable (r.fl (s.pos.y + intToFloat s.scale) ≤ 0 ∨
    r.fl (s.pos.x + intToFloat s.scale) < 0 ∨
    r.fl (s.pos.x - intToFloat s.scale) > intToFloat SCREEN_WIDTH))

/-- The snowflake after lines 308-311. Line 311 evaluates
`0.75 * rotationSpeed * sin(...) * delta` and the sum with `pos.x` in `double`, then stores
the sum in the `float` `pos.x`. -/
def movedR (r : Rounding) (sin2 : ℚ → ℚ) (delta : ℚ) (s : Snowflake) : Snowflake :=
  let vel := fallVelocityR r s.scale
  let s1 : Snowflake := { s with pos := Vec3.addR r s.pos (Vec3.smulR r delta vel) }
  { s1 with pos := { s1.pos with
      x := r.fl (r.dl (s1.pos.x +
        r.dl (r.dl (r.dl (3 / 4 * s1.rotationSpeed) * sin2 s1.rotationAngle) * delta))) } }

/-- The snowflake after lines 313-316. -/
def respawnedR (r : Rounding) (s : Snowflake) (g : Rng) : Snowflake × Rng :=
  if offScreenR r s then
    ({ s with pos := { s.pos with
        x := intToFloat (Int.tmod (rand g).1 SCREEN_WIDTH)
        y := intToFloat (wrapInt32 (s.scale + SCREEN_HEIGHT)) } }, (rand g).2)
  else (s, g)

/-- One pass of the loop body of `update` on one snowflake. -/
def updateBodyR (r : Rounding) (sin2 : ℚ → ℚ) (delta : ℚ) (s : Snowflake) (g : Rng) :
    Snowflake × Rng :=
  let p := respawnedR r (movedR r sin2 delta s) g
  ({ p.1 with rotationAngle := r.fl (p.1.rotationAngle + r.fl (p.1.rotationSpeed * delta)) },
    p.2)

/-- The loop `for (auto &s : snowflakes)`, in order, threading the generator. -/
def updateLoopR (r : Rounding) (sin2 : ℚ → ℚ) (delta : ℚ) :
    List Snowflake → Rng → List Snowflake × Rng
  | [], g => ([], g)
  | s :: rest, g =>
    let p := updateBodyR r sin2 delta s g
    let t := updateLoopR r sin2 delta rest p.2
    (p.1 :: t.1, t.2)

/-- The function `update`, every floating-point operation rounded by `r`. -/
def updateR (r : Rounding) (sin2 : ℚ → ℚ) (delta : ℚ) (w : World) : World :=
  let p := updateLoopR r sin2 delta w.snowflakes w.rng
  ⟨p.1, p.2⟩

/-! ## Vocabulary for the statements -/

/-- The states the program can be in (lines 351-371 of `main`): `setupSnowflakes` on the empty
vector, then any number of `update` calls, each with the `deltaTime` of line 361; `render`
changes neither the vector nor the generator. -/
inductive Reachable (sin2 : ℚ → ℚ) : World → Prop
  | setup (g : Rng) : Reachable sin2 (setupSnowflakes (World.start g))
  | step (ticks : Nat) (w : World) :
      Reachable sin2 w → Reachable sin2 (update sin2 (frameDelta ticks) w)

/-- The projection of a snowflake to the fields a simulation step must not touch. -/
def Snowflake.fixedPart (s : Snowflake) : Int × ℚ × List ℚ :=
  (s.scale, s.rotationSpeed, s.textureCoords)

/-- The texture region of the atlas cell in column `c` and row `r` of the 16 x 16 grid, as the
four corner pairs in the order they are stored. -/
def atlasCell (c r : Nat) : List ℚ :=
  [(c : ℚ) / 16, ((r : ℚ) + 1) / 16,
   ((c : ℚ) + 1) / 16, ((r : ℚ) + 1) / 16,
   ((c : ℚ) + 1) / 16, (r : ℚ) / 16,
   (c : ℚ) / 16, (r : ℚ) / 16]

/-- A generator whose first draws are the given list and whose later draws are zero. -/
def Rng.ofList (l : List Nat) : Rng := ⟨fun k => l.getD k 0, 0⟩

/-- The snowflake `setupSnowflakes` creates at index `i`, when the loop starts from generator
state `g`: pass `i` begins after `5 * i` draws. -/
def created (g : Rng) (i : Nat) : Snowflake :=
  (newSnowflake (i : Int) ⟨g.draws, g.next + 5 * i⟩).1

/-- The negation of the test of line 313, spelled out. -/
def onScreen (s : Snowflake) : Prop :=
  s.pos.y + intToFloat s.scale > 0 ∧ s.pos.x + intToFloat s.scale ≥ 0 ∧
    s.pos.x - intToFloat s.scale ≤ 800

/-- The property every snowflake has in every reachable state: a scale the setup can produce,
and a position for which the test of line 313 is false. -/
def Settled (s : Snowflake) : Prop := 4 ≤ s.scale ∧ s.scale < 24 ∧ onScreen s

/-! ## Basic facts -/

theorem air_resistance_factor_eq : AIR_RESISTANCE_FACTOR = -187 := by
  unfold AIR_RESISTANCE_FACTOR floatToInt GRAVITY
  norm_num
  decide

theorem velY_eq (scale : Int) : velY scale = -250 + 187 * (1 - ((scale : ℚ) - 4) / 19) := by
  unfold velY
  rw [air_resistance_factor_eq]
  simp only [GRAVITY, MIN_SNOWFLAKE_SCALE, maxScale, NUM_SCALES]
  push_cast
  ring

theorem tmod_natCast_nonneg (a : Nat) (b : Int) : 0 ≤ Int.tmod (a : Int) b :=
  Int.tmod_nonneg b (Int.ofNat_nonneg a)

theorem tmod_natCast_lt (a : Nat) {b : Int} (hb : 0 < b) : Int.tmod (a : Int) b < b :=
  Int.tmod_lt_of_pos _ hb

/-! ## Rounding to nearest -/

theorem nearestEven_intCast (k : Int) : nearestEven (k : ℚ) = k := by
  unfold nearestEven
  simp

theorem nearestEven_bounds (z : ℚ) : ⌊z⌋ ≤ nearestEven z ∧ nearestEven z ≤ ⌊z⌋ + 1 := by
  unfold nearestEven
  split_ifs <;> omega

theorem nearestEven_mono {z w : ℚ} (h : z ≤ w) : nearestEven z ≤ nearestEven w := by
  have hf : ⌊z⌋ ≤ ⌊w⌋ := Int.floor_mono h
  rcases hf.lt_or_eq with hlt | heq
  · have h1 := (nearestEven_bounds z).2
    have h2 := (nearestEven_bounds w).1
    omega
  · unfold nearestEven
    rw [← heq]
    split_ifs <;> first | omega | (exfalso; linarith)

theorem ulp_pos (q : Nat) (x : ℚ) : 0 < ulp q x := by
  unfold ulp
  positivity

theorem log_eq_of_bounds {x : ℚ} {e : Int} (h0 : (2 : ℚ) ^ e ≤ x) (h1 : x < (2 : ℚ) ^ (e + 1)) :
    Int.log 2 x = e := by
  have hx : 0 < x := lt_of_lt_of_le (by positivity) h0
  have a : e ≤ Int.log 2 x := (Int.zpow_le_iff_le_log (by norm_num) hx).1 (by exact_mod_cast h0)
  have b : Int.log 2 x < e + 1 := (Int.lt_zpow_iff_log_lt (by norm_num) hx).1 (by exact_mod_cast h1)
  omega

theorem div_ulp_bounds (q : Nat) {x : ℚ} (hx : 0 < x) :
    (2 : ℚ) ^ q ≤ x / ulp q x ∧ x / ulp q x < (2 : ℚ) ^ (q + 1) := by
  have h0 : ((2 : ℕ) : ℚ) ^ Int.log 2 x ≤ x := Int.zpow_log_le_self (by norm_num) hx
  have h1 : x < ((2 : ℕ) : ℚ) ^ (Int.log 2 x + 1) := Int.lt_zpow_succ_log_self (by norm_num) x
  have hu := ulp_pos q x
  have e0 : (2 : ℚ) ^ Int.log 2 x = (2 : ℚ) ^ q * ulp q x := by
    unfold ulp
    rw [← zpow_natCast, ← zpow_add₀ (by norm_num)]
    congr 1
    omega
  have e1 : (2 : ℚ) ^ (Int.log 2 x + 1) = (2 : ℚ) ^ (q + 1) * ulp q x := by
    unfold ulp
    rw [← zpow_natCast, ← zpow_add₀ (by norm_num)]
    congr 1
    push_cast
    omega
  push_cast at h0 h1
  rw [e0] at h0
  rw [e1] at h1
  constructor
  · rw [le_div_iff₀ hu]
    exact h0
  · rw [div_lt_iff₀ hu]
    exact h1

theorem roundPos_of_lt (q : Nat) (k : Nat) (j : Int) (hk0 : 0 < k) (hk : k < 2 ^ (q + 1)) :
    roundPos q ((k : ℚ) * 2 ^ j) = (k : ℚ) * 2 ^ j := by
  have hkq : (0 : ℚ) < (k : ℚ) := by exact_mod_cast hk0
  have hx : (0 : ℚ) < (k : ℚ) * 2 ^ j := by positivity
  have hlt : (k : ℚ) * 2 ^ j < ((2 : ℕ) : ℚ) ^ ((q : Int) + 1 + j) := by
    rw [zpow_add₀ (by norm_num)]
    apply mul_lt_mul_of_pos_right _ (by positivity)
    have : (k : ℚ) < (2 : ℚ) ^ (q + 1) := by exact_mod_cast hk
    rw [← zpow_natCast] at this
    push_cast at this ⊢
    exact this
  have hlog : Int.log 2 ((k : ℚ) * 2 ^ j) < (q : Int) + 1 + j :=
    (Int.lt_zpow_iff_log_lt (by norm_num) hx).1 hlt
  have hd : 0 ≤ j - (Int.log 2 ((k : ℚ) * 2 ^ j) - (q : Int)) := by omega
  obtain ⟨d, hd'⟩ := Int.eq_ofNat_of_zero_le hd
  have hdiv : (k : ℚ) * 2 ^ j / ulp q ((k : ℚ) * 2 ^ j) = (((k * 2 ^ d : Nat) : Int) : ℚ) := by
    unfold ulp
    rw [mul_div_assoc, ← zpow_sub₀ (by norm_num), hd', zpow_natCast]
    push_cast
    rfl
  unfold roundPos
  rw [hdiv, nearestEven_intCast, ← hdiv]
  exact div_mul_cancel₀ _ (ne_of_gt (ulp_pos q _))

theorem roundPos_of_le (q : Nat) (k : Nat) (j : Int) (hk0 : 0 < k) (hk : k ≤ 2 ^ (q + 1)) :
    roundPos q ((k : ℚ) * 2 ^ j) = (k : ℚ) * 2 ^ j := by
  rcases Nat.lt_or_eq_of_le hk with h | h
  · exact roundPos_of_lt q k j hk0 h
  · have e : (k : ℚ) * 2 ^ j = ((2 ^ q : Nat) : ℚ) * 2 ^ (j + 1) := by
      rw [h, zpow_add₀ (by norm_num)]
      push_cast
      ring
    rw [e]
    exact roundPos_of_lt q (2 ^ q) (j + 1) (by positivity)
      (Nat.pow_lt_pow_right (by norm_num) (by omega))

theorem nearestEven_div_ulp_bounds (q : Nat) {x : ℚ} (hx : 0 < x) :
    (2 : Int) ^ q ≤ nearestEven (x / ulp q x) ∧ nearestEven (x / ulp q x) ≤ (2 : Int) ^ (q + 1) := by
  obtain ⟨h0, h1⟩ := div_ulp_bounds q hx
  have a := nearestEven_mono (z := (((2 : Int) ^ q : Int) : ℚ)) (w := x / ulp q x)
    (by push_cast; exact h0)
  have b := nearestEven_mono (z := x / ulp q x) (w := (((2 : Int) ^ (q + 1) : Int) : ℚ))
    (by push_cast; exact le_of_lt h1)
  rw [nearestEven_intCast] at a b
  exact ⟨a, b⟩

theorem roundPos_bounds (q : Nat) {x : ℚ} (hx : 0 < x) :
    (2 : ℚ) ^ Int.log 2 x ≤ roundPos q x ∧ roundPos q x ≤ (2 : ℚ) ^ (Int.log 2 x + 1) := by
  obtain ⟨h0, h1⟩ := nearestEven_div_ulp_bounds q hx
  have hu := ulp_pos q x
  have e0 : (2 : ℚ) ^ Int.log 2 x = (2 : ℚ) ^ q * ulp q x := by
    unfold ulp
    rw [← zpow_natCast, ← zpow_add₀ (by norm_num)]
    congr 1
    omega
  have e1 : (2 : ℚ) ^ (Int.log 2 x + 1) = (2 : ℚ) ^ (q + 1) * ulp q x := by
    unfold ulp
    rw [← zpow_natCast, ← zpow_add₀ (by norm_num)]
    congr 1
    push_cast
    omega
  have h0q : (2 : ℚ) ^ q ≤ (nearestEven (x / ulp q x) : ℚ) := by exact_mod_cast h0
  have h1q : (nearestEven (x / ulp q x) : ℚ) ≤ (2 : ℚ) ^ (q + 1) := by exact_mod_cast h1
  unfold roundPos
  rw [e0, e1]
  exact ⟨mul_le_mul_of_nonneg_right h0q (le_of_lt hu),
    mul_le_mul_of_nonneg_right h1q (le_of_lt hu)⟩

theorem roundPos_pos (q : Nat) {x : ℚ} (hx : 0 < x) : 0 < roundPos q x :=
  lt_of_lt_of_le (by positivity) (roundPos_bounds q hx).1

theorem roundPos_idem (q : Nat) {x : ℚ} (hx : 0 < x) :
    roundPos q (roundPos q x) = roundPos q x := by
  obtain ⟨h0, h1⟩ := nearestEven_div_ulp_bounds q hx
  have hm : 0 ≤ nearestEven (x / ulp q x) := le_trans (by positivity) h0
  obtain ⟨k, hk⟩ := Int.eq_ofNat_of_zero_le hm
  have hk0 : 0 < k := by
    have : (0 : Int) < 2 ^ q := by positivity
    omega
  have hk1 : k ≤ 2 ^ (q + 1) := by
    have : ((k : Nat) : Int) ≤ ((2 ^ (q + 1) : Nat) : Int) := by
      push_cast
      omega
    exact_mod_cast this
  have e : roundPos q x = (k : ℚ) * 2 ^ (Int.log 2 x - (q : Int)) := by
    unfold roundPos
    rw [hk]
    unfold ulp
    push_cast
    rfl
  rw [e]
  exact roundPos_of_le q k _ hk0 hk1

theorem roundPos_mono (q : Nat) {x y : ℚ} (hx : 0 < x) (h : x ≤ y) :
    roundPos q x ≤ roundPos q y := by
  have hy : 0 < y := lt_of_lt_of_le hx h
  have hl : Int.log 2 x ≤ Int.log 2 y := Int.log_mono_right hx h
  rcases hl.lt_or_eq with hlt | heq
  · have a := (roundPos_bounds q hx).2
    have b := (roundPos_bounds q hy).1
    have c : (2 : ℚ) ^ (Int.log 2 x + 1) ≤ (2 : ℚ) ^ Int.log 2 y :=
      zpow_le_zpow_right₀ (by norm_num) (by omega)
    linarith
  · have hu : ulp q x = ulp q y := by
      unfold ulp
      rw [heq]
    unfold roundPos
    rw [hu]
    have hup := ulp_pos q y
    have hd : x / ulp q y ≤ y / ulp q y := div_le_div_of_nonneg_right h (le_of_lt hup)
    have hn := nearestEven_mono hd
    have hnq : (nearestEven (x / ulp q y) : ℚ) ≤ (nearestEven (y / ulp q y) : ℚ) := by
      exact_mod_cast hn
    exact mul_le_mul_of_nonneg_right hnq (le_of_lt hup)

theorem roundBits_mono (q : Nat) {x y : ℚ} (h : x ≤ y) : roundBits q x ≤ roundBits q y := by
  unfold roundBits
  by_cases hx : 0 < x
  · have hy : 0 < y := lt_of_lt_of_le hx h
    rw [if_pos hx, if_pos hy]
    exact roundPos_mono q hx h
  · rw [if_neg hx]
    by_cases hxn : x < 0
    · rw [if_pos hxn]
      have hnx : 0 < -x := by linarith
      have hrx := roundPos_pos q hnx
      by_cases hy : 0 < y
      · rw [if_pos hy]
        have := roundPos_pos q hy
        linarith
      · rw [if_neg hy]
        by_cases hyn : y < 0
        · rw [if_pos hyn]
          have hny : 0 < -y := by linarith
          have := roundPos_mono q hny (by linarith : -y ≤ -x)
          linarith
        · rw [if_neg hyn]
          linarith
    · rw [if_neg hxn]
      by_cases hy : 0 < y
      · rw [if_pos hy]
        exact le_of_lt (roundPos_pos q hy)
      · rw [if_neg hy, if_neg (by linarith)]

theorem roundBits_idem (q : Nat) (x : ℚ) : roundBits q (roundBits q x) = roundBits q x := by
  by_cases hx : 0 < x
  · have e : roundBits q x = roundPos q x := by
      unfold roundBits
      rw [if_pos hx]
    have hp := roundPos_pos q hx
    rw [e]
    unfold roundBits
    rw [if_pos hp]
    exact roundPos_idem q hx
  · by_cases hxn : x < 0
    · have hnx : 0 < -x := by linarith
      have e : roundBits q x = -roundPos q (-x) := by
        unfold roundBits
        rw [if_neg hx, if_pos hxn]
      have hp := roundPos_pos q hnx
      rw [e]
      unfold roundBits
      rw [if_neg (by linarith), if_pos (by linarith), neg_neg, roundPos_idem q hnx]
    · have e : roundBits q x = 0 := by
        unfold roundBits
        rw [if_neg hx, if_neg hxn]
      rw [e]
      unfold roundBits
      simp

theorem roundBits_intCast (q : Nat) (n : Int) (h : |n| ≤ 2 ^ (q + 1)) :
    roundBits q (n : ℚ) = (n : ℚ) := by
  have key : ∀ k : Nat, 0 < k → k ≤ 2 ^ (q + 1) → roundPos q (k : ℚ) = (k : ℚ) := by
    intro k hk0 hk
    have := roundPos_of_le q k 0 hk0 hk
    simpa using this
  have habs : n.natAbs ≤ 2 ^ (q + 1) := by
    have : ((n.natAbs : Nat) : Int) ≤ ((2 ^ (q + 1) : Nat) : Int) := by
      rw [Int.natCast_natAbs]
      push_cast
      exact h
    exact_mod_cast this
  unfold roundBits
  by_cases hn : 0 < n
  · have hq : (0 : ℚ) < (n : ℚ) := by exact_mod_cast hn
    rw [if_pos hq]
    have e : (n : ℚ) = ((n.natAbs : Nat) : ℚ) := by
      have h1 : ((n.natAbs : Nat) : Int) = n := Int.natAbs_of_nonneg (le_of_lt hn)
      calc (n : ℚ) = (((n.natAbs : Nat) : Int) : ℚ) := by rw [h1]
        _ = ((n.natAbs : Nat) : ℚ) := Int.cast_natCast _
    rw [e]
    exact key _ (by omega) habs
  · by_cases hnn : n < 0
    · have hq : (n : ℚ) < 0 := by exact_mod_cast hnn
      rw [if_neg (by linarith), if_pos hq]
      have e : -(n : ℚ) = ((n.natAbs : Nat) : ℚ) := by
        have h1 : ((n.natAbs : Nat) : Int) = -n := Int.ofNat_natAbs_of_nonpos (le_of_lt hnn)
        calc -(n : ℚ) = (((n.natAbs : Nat) : Int) : ℚ) := by rw [h1]; push_cast; rfl
          _ = ((n.natAbs : Nat) : ℚ) := Int.cast_natCast _
      rw [e, key _ (by omega) habs, ← e]
      ring
    · have : n = 0 := by omega
      rw [this]
      simp

theorem nearestEven_of_lt_half (z : ℚ) (f : Int) (h0 : (f : ℚ) ≤ z) (h1 : z < (f : ℚ) + 1 / 2) :
    nearestEven z = f := by
  have hf : ⌊z⌋ = f := Int.floor_eq_iff.2 ⟨h0, by linarith⟩
  unfold nearestEven
  rw [hf, if_pos (by linarith)]

theorem nearestEven_of_gt_half (z : ℚ) (f : Int) (h0 : (f : ℚ) + 1 / 2 < z)
    (h1 : z < (f : ℚ) + 1) : nearestEven z = f + 1 := by
  have hf : ⌊z⌋ = f := Int.floor_eq_iff.2 ⟨by linarith, h1⟩
  unfold nearestEven
  rw [hf, if_neg (by linarith), if_pos (by linarith)]

theorem roundPos_eval (q : Nat) (x : ℚ) (e m : Int) (h0 : (2 : ℚ) ^ e ≤ x)
    (h1 : x < (2 : ℚ) ^ (e + 1)) (hm : nearestEven (x / 2 ^ (e - (q : Int))) = m) :
    roundPos q x = (m : ℚ) * 2 ^ (e - (q : Int)) := by
  unfold roundPos ulp
  rw [log_eq_of_bounds h0 h1, hm]

theorem roundBits_dyadic (q : Nat) (k : Nat) (j : Int) (hk0 : 0 < k) (hk : k ≤ 2 ^ (q + 1)) :
    roundBits q ((k : ℚ) * 2 ^ j) = (k : ℚ) * 2 ^ j ∧
    roundBits q (-((k : ℚ) * 2 ^ j)) = -((k : ℚ) * 2 ^ j) := by
  have hkq : (0 : ℚ) < (k : ℚ) := by exact_mod_cast hk0
  have hx : (0 : ℚ) < (k : ℚ) * 2 ^ j := by positivity
  unfold roundBits
  constructor
  · rw [if_pos hx]
    exact roundPos_of_le q k j hk0 hk
  · rw [if_neg (by linarith), if_pos (by linarith), neg_neg, roundPos_of_le q k j hk0 hk]

/-! ## Machine integers -/

theorem wrapInt32_eq (n : Int) (h0 : -2147483648 ≤ n) (h1 : n < 2147483648) :
    wrapInt32 n = n := by
  unfold wrapInt32
  omega

theorem intToFloat_eq_cast (n : Int) (h0 : -16777216 < n) (h1 : n < 16777216) :
    intToFloat n = (n : ℚ) := by
  unfold intToFloat
  apply roundBits_intCast
  rw [abs_le]
  constructor <;> norm_num <;> omega

theorem intToFloat_pos (n : Int) (h : 0 < n) : 0 < intToFloat n := by
  have hq : (0 : ℚ) < (n : ℚ) := by exact_mod_cast h
  unfold intToFloat roundBits
  rw [if_pos hq]
  exact roundPos_pos 23 hq

theorem intToFloat_nonneg (n : Int) (h : 0 ≤ n) : 0 ≤ intToFloat n := by
  rcases eq_or_lt_of_le h with h0 | h0
  · rw [← h0]
    unfold intToFloat roundBits
    simp
  · exact le_of_lt (intToFloat_pos n h0)

theorem intToFloat_2147483048 : intToFloat 2147483048 = 2147483008 := by
  unfold intToFloat roundBits
  rw [if_pos (by norm_num)]
  rw [roundPos_eval 23 _ 30 16777211 (by norm_num) (by norm_num)
    (nearestEven_of_lt_half _ 16777211 (by norm_num) (by norm_num))]
  norm_num

theorem intToFloat_int_min : intToFloat (-2147483648) = -2147483648 := by
  have h := (roundBits_dyadic 23 1 31 (by norm_num) (by norm_num)).2
  unfold intToFloat
  have e : (((-2147483648 : Int)) : ℚ) = -(((1 : Nat) : ℚ) * 2 ^ (31 : Int)) := by norm_num
  rw [e, h]
  norm_num

theorem intToFloat_two : intToFloat (wrapInt32 (6 - MIN_SNOWFLAKE_SCALE)) = 2 := by
  have hw : wrapInt32 (6 - MIN_SNOWFLAKE_SCALE) = 2 := by decide
  rw [hw, intToFloat_eq_cast 2 (by decide) (by decide)]
  norm_num

theorem intToFloat_maxScale : intToFloat maxScale = 19 := by
  have hm : maxScale = 19 := by decide
  rw [hm, intToFloat_eq_cast 19 (by decide) (by decide)]
  norm_num

theorem intToFloat_air : intToFloat AIR_RESISTANCE_FACTOR = -187 := by
  rw [air_resistance_factor_eq, intToFloat_eq_cast (-187) (by decide) (by decide)]
  norm_num

theorem intToFloat_screen_width : intToFloat SCREEN_WIDTH = 800 := by
  have hm : SCREEN_WIDTH = 800 := rfl
  rw [hm, intToFloat_eq_cast 800 (by decide) (by decide)]
  norm_num

/-! ## The loop of setupSnowflakes, index by index -/

theorem newSnowflake_rng (i : Int) (g : Rng) :
    (newSnowflake i g).2 = ⟨g.draws, g.next + 5⟩ := rfl

theorem setupLoop_eq (n : Nat) : ∀ (i : Nat) (w : World),
    setupLoop n i w =
      ⟨w.snowflakes ++ (List.range n).map (fun k =>
          (newSnowflake ((i + k : Nat) : Int) ⟨w.rng.draws, w.rng.next + 5 * k⟩).1),
        ⟨w.rng.draws, w.rng.next + 5 * n⟩⟩ := by
  induction n with
  | zero => intro i w; simp [setupLoop]
  | succ n ih =>
    intro i w
    rw [setupLoop, ih]
    simp only [setupBody, newSnowflake_rng, List.range_succ_eq_map, List.map_cons, List.map_map,
      List.append_assoc, List.singleton_append]
    have e1 : w.rng.next + 5 + 5 * n = w.rng.next + 5 * (n + 1) := by omega
    rw [e1]
    congr 3
    apply List.map_congr_left
    intro k _
    have e2 : i + 1 + k = i + (k + 1) := by omega
    have e3 : w.rng.next + 5 + 5 * k = w.rng.next + 5 * (k + 1) := by omega
    simp only [Function.comp, Nat.succ_eq_add_one, e2, e3]

theorem setup_snowflakes (g : Rng) :
    (setupSnowflakes (World.start g)).snowflakes = (List.range NUM_SNOWFLAKES).map (created g) := by
  unfold setupSnowflakes
  rw [setupLoop_eq]
  simp [World.start, created]

theorem setup_length (g : Rng) :
    (setupSnowflakes (World.start g)).snowflakes.length = NUM_SNOWFLAKES := by
  rw [setup_snowflakes]
  simp

theorem setup_get (g : Rng) (i : Nat) (h : i < NUM_SNOWFLAKES) :
    (setupSnowflakes (World.start g)).snowflakes[i]? = some (created g i) := by
  rw [setup_snowflakes]
  simp [List.getElem?_map, List.getElem?_range h]

/-! ## Facts about one created snowflake -/

theorem biasedRotationSpeed_abs (r : Int) : 5 ≤ |biasedRotationSpeed r| := by
  unfold biasedRotationSpeed MIN_ROTATE_SPEED
  simp only
  split
  · rw [abs_of_neg (by omega)]
    omega
  · rw [abs_of_nonneg (by omega)]
    omega

theorem chooseScale_small (roll r : Nat) (h : Int.tmod (roll : Int) 10 < 9) :
    4 ≤ chooseScale roll r ∧ chooseScale roll r < 14 := by
  have h0 := tmod_natCast_nonneg r 10
  have h1 := tmod_natCast_lt r (b := 10) (by decide)
  unfold chooseScale NUM_SCALES MIN_SNOWFLAKE_SCALE
  rw [if_pos h]
  omega

theorem chooseScale_large (roll r : Nat) (h : ¬ Int.tmod (roll : Int) 10 < 9) :
    14 ≤ chooseScale roll r ∧ chooseScale roll r < 24 := by
  have h0 := tmod_natCast_nonneg r 10
  have h1 := tmod_natCast_lt r (b := 10) (by decide)
  unfold chooseScale NUM_SCALES MIN_SNOWFLAKE_SCALE
  rw [if_neg h]
  omega

theorem chooseScale_range (roll r : Nat) :
    4 ≤ chooseScale roll r ∧ chooseScale roll r < 24 := by
  by_cases h : Int.tmod (roll : Int) 10 < 9
  · have := chooseScale_small roll r h
    omega
  · have := chooseScale_large roll r h
    omega

theorem texCoords_natCast (i : Nat) :
    texCoords (i : Int) = atlasCell (i % 256 % 16) (i % 256 / 16) := by
  have e1 : Int.tmod (i : Int) 256 = ((i % 256 : Nat) : Int) := (Int.ofNat_tmod i 256).symm
  have e2 : Int.tmod ((i % 256 : Nat) : Int) 16 = ((i % 256 % 16 : Nat) : Int) :=
    (Int.ofNat_tmod (i % 256) 16).symm
  have e3 : Int.tdiv ((i % 256 : Nat) : Int) 16 = ((i % 256 / 16 : Nat) : Int) :=
    (Int.ofNat_tdiv (i % 256) 16).symm
  unfold texCoords atlasCell textureWidth textureHeight BITMAP_NUM_TEXTURES_PER_COL
    BITMAP_NUM_TEXTURES_PER_ROW
  simp only [e1, e2, e3, Int.cast_natCast, Int.cast_ofNat]
  congr 1
  · ring
  congr 1
  · ring
  congr 1
  · ring
  congr 1
  · ring
  congr 1
  · ring
  congr 1
  · ring
  congr 1
  · ring
  congr 1
  ring

theorem created_pos (g : Rng) (i : Nat) :
    (created g i).pos =
      ⟨((Int.tmod (g.draws (g.next + 5 * i) : Int) SCREEN_WIDTH : Int) : ℚ),
       ((Int.tmod (g.draws (g.next + 5 * i + 1) : Int) SCREEN_HEIGHT : Int) : ℚ), 0⟩ := rfl

theorem created_scale (g : Rng) (i : Nat) :
    (created g i).scale =
      chooseScale (g.draws (g.next + 5 * i + 3)) (g.draws (g.next + 5 * i + 4)) := rfl

theorem created_rotationSpeed (g : Rng) (i : Nat) :
    (created g i).rotationSpeed =
      ((biasedRotationSpeed (g.draws (g.next + 5 * i + 2)) : Int) : ℚ) := rfl

theorem created_rotationAngle (g : Rng) (i : Nat) : (created g i).rotationAngle = 0 := rfl

theorem created_textureCoords (g : Rng) (i : Nat) :
    (created g i).textureCoords = atlasCell (i % 256 % 16) (i % 256 / 16) := by
  have h : (created g i).textureCoords = texCoords (i : Int) := rfl
  rw [h, texCoords_natCast]

theorem created_bounds (g : Rng) (i : Nat) :
    0 ≤ (created g i).pos.x ∧ (created g i).pos.x < 800 ∧
    0 ≤ (created g i).pos.y ∧ (created g i).pos.y < 600 ∧ (created g i).pos.z = 0 ∧
    4 ≤ (created g i).scale ∧ (created g i).scale < 24 ∧
    5 ≤ |(created g i).rotationSpeed| ∧ (created g i).rotationAngle = 0 := by
  have hx0 := tmod_natCast_nonneg (g.draws (g.next + 5 * i)) SCREEN_WIDTH
  have hx1 := tmod_natCast_lt (g.draws (g.next + 5 * i)) (b := SCREEN_WIDTH) (by decide)
  have hy0 := tmod_natCast_nonneg (g.draws (g.next + 5 * i + 1)) SCREEN_HEIGHT
  have hy1 := tmod_natCast_lt (g.draws (g.next + 5 * i + 1)) (b := SCREEN_HEIGHT) (by decide)
  have hs := chooseScale_range (g.draws (g.next + 5 * i + 3)) (g.draws (g.next + 5 * i + 4))
  have hr := biasedRotationSpeed_abs (g.draws (g.next + 5 * i + 2))
  rw [created_pos, created_scale, created_rotationSpeed, created_rotationAngle]
  refine ⟨?_, ?_, ?_, ?_, rfl, hs.1, hs.2, ?_, rfl⟩ <;> dsimp only
  · exact_mod_cast hx0
  · have : Int.tmod (g.draws (g.next + 5 * i) : Int) SCREEN_WIDTH < 800 := hx1
    exact_mod_cast this
  · exact_mod_cast hy0
  · have : Int.tmod (g.draws (g.next + 5 * i + 1) : Int) SCREEN_HEIGHT < 600 := hy1
    exact_mod_cast this
  · rw [← Int.cast_abs]
    exact_mod_cast hr

/-! ## Facts about one pass of the update loop -/

theorem onScreen_iff (s : Snowflake) : onScreen s ↔ ¬ offScreen s := by
  unfold onScreen offScreen SCREEN_WIDTH
  push_cast
  constructor
  · rintro ⟨h1, h2, h3⟩ (h | h | h) <;> linarith
  · intro h
    refine ⟨?_, ?_, ?_⟩
    · by_contra hc
      exact h (Or.inl (by linarith))
    · by_contra hc
      exact h (Or.inr (Or.inl (by linarith)))
    · by_contra hc
      exact h (Or.inr (Or.inr (by linarith)))

theorem onScreen_iff_cast (s : Snowflake) (h0 : -16777216 < s.scale)
    (h1 : s.scale < 16777216) :
    onScreen s ↔ (s.pos.y + (s.scale : ℚ) > 0 ∧ s.pos.x + (s.scale : ℚ) ≥ 0 ∧
      s.pos.x - (s.scale : ℚ) ≤ 800) := by
  unfold onScreen
  rw [intToFloat_eq_cast s.scale h0 h1]

theorem velY_neg (scale : Int) (h : 4 ≤ scale) : velY scale < 0 := by
  rw [velY_eq]
  have h1 : (4 : ℚ) ≤ (scale : ℚ) := by exact_mod_cast h
  have h2 : 0 ≤ ((scale : ℚ) - 4) / 19 := by
    apply div_nonneg <;> linarith
  linarith

theorem moved_fixedPart (sin2 : ℚ → ℚ) (delta : ℚ) (s : Snowflake) :
    (moved sin2 delta s).fixedPart = s.fixedPart := rfl

theorem moved_scale (sin2 : ℚ → ℚ) (delta : ℚ) (s : Snowflake) :
    (moved sin2 delta s).scale = s.scale := rfl

theorem moved_rotationAngle (sin2 : ℚ → ℚ) (delta : ℚ) (s : Snowflake) :
    (moved sin2 delta s).rotationAngle = s.rotationAngle := rfl

theorem moved_pos_y (sin2 : ℚ → ℚ) (delta : ℚ) (s : Snowflake) :
    (moved sin2 delta s).pos.y = s.pos.y + delta * velY s.scale := rfl

theorem moved_pos_x (sin2 : ℚ → ℚ) (delta : ℚ) (s : Snowflake) :
    (moved sin2 delta s).pos.x =
      s.pos.x + delta * 0 + 3 / 4 * s.rotationSpeed * sin2 s.rotationAngle * delta := rfl

theorem moved_zero (sin2 : ℚ → ℚ) (s : Snowflake) : moved sin2 0 s = s := by
  unfold moved Vec3.add Vec3.smul
  simp

theorem respawned_fixedPart (s : Snowflake) (g : Rng) :
    (respawned s g).1.fixedPart = s.fixedPart := by
  unfold respawned
  split <;> rfl

theorem respawned_rotationAngle (s : Snowflake) (g : Rng) :
    (respawned s g).1.rotationAngle = s.rotationAngle := by
  unfold respawned
  split <;> rfl

theorem respawned_of_offScreen (s : Snowflake) (g : Rng) (h : offScreen s) :
    respawned s g =
      ({ s with pos := { s.pos with
          x := ((Int.tmod (g.draws g.next : Int) SCREEN_WIDTH : Int) : ℚ)
          y := intToFloat (wrapInt32 (s.scale + SCREEN_HEIGHT)) } },
        ⟨g.draws, g.next + 1⟩) := by
  unfold respawned
  rw [if_pos h]
  rfl

theorem respawned_of_not_offScreen (s : Snowflake) (g : Rng) (h : ¬ offScreen s) :
    respawned s g = (s, g) := by
  unfold respawned
  rw [if_neg h]

theorem respawned_onScreen (s : Snowflake) (g : Rng) (h : 0 ≤ s.scale)
    (hmax : s.scale ≤ 2147483047) : onScreen (respawned s g).1 := by
  by_cases hoff : offScreen s
  · rw [respawned_of_offScreen s g hoff]
    have h0 := tmod_natCast_nonneg (g.draws g.next) SCREEN_WIDTH
    have h1 : Int.tmod (g.draws g.next : Int) SCREEN_WIDTH < 800 :=
      tmod_natCast_lt (g.draws g.next) (b := SCREEN_WIDTH) (by decide)
    have h0q : (0 : ℚ) ≤ ((Int.tmod (g.draws g.next : Int) SCREEN_WIDTH : Int) : ℚ) := by
      exact_mod_cast h0
    have h1q : ((Int.tmod (g.draws g.next : Int) SCREEN_WIDTH : Int) : ℚ) < 800 := by
      exact_mod_cast h1
    have hs := intToFloat_nonneg s.scale h
    have hw : wrapInt32 (s.scale + SCREEN_HEIGHT) = s.scale + SCREEN_HEIGHT := by
      apply wrapInt32_eq <;> unfold SCREEN_HEIGHT <;> omega
    have hy : 0 < intToFloat (wrapInt32 (s.scale + SCREEN_HEIGHT)) := by
      rw [hw]
      apply intToFloat_pos
      unfold SCREEN_HEIGHT
      omega
    unfold onScreen
    dsimp only
    refine ⟨?_, ?_, ?_⟩ <;> linarith
  · rw [respawned_of_not_offScreen s g hoff]
    exact (onScreen_iff s).2 hoff

theorem updateBody_fixedPart (sin2 : ℚ → ℚ) (delta : ℚ) (s : Snowflake) (g : Rng) :
    (updateBody sin2 delta s g).1.fixedPart = s.fixedPart := by
  have h := respawned_fixedPart (moved sin2 delta s) g
  rw [moved_fixedPart] at h
  exact h

theorem updateBody_pos (sin2 : ℚ → ℚ) (delta : ℚ) (s : Snowflake) (g : Rng) :
    (updateBody sin2 delta s g).1.pos = (respawned (moved sin2 delta s) g).1.pos := rfl

theorem updateBody_scale (sin2 : ℚ → ℚ) (delta : ℚ) (s : Snowflake) (g : Rng) :
    (updateBody sin2 delta s g).1.scale = s.scale :=
  congrArg Prod.fst (updateBody_fixedPart sin2 delta s g)

theorem updateBody_rotationAngle (sin2 : ℚ → ℚ) (delta : ℚ) (s : Snowflake) (g : Rng) :
    (updateBody sin2 delta s g).1.rotationAngle = s.rotationAngle + s.rotationSpeed * delta := by
  have h1 := respawned_rotationAngle (moved sin2 delta s) g
  have h2 := respawned_fixedPart (moved sin2 delta s) g
  have h3 : (respawned (moved sin2 delta s) g).1.rotationSpeed = s.rotationSpeed :=
    congrArg (fun p => p.2.1) h2
  show (respawned (moved sin2 delta s) g).1.rotationAngle +
    (respawned (moved sin2 delta s) g).1.rotationSpeed * delta = _
  rw [h1, h3, moved_rotationAngle]

theorem updateBody_onScreen (sin2 : ℚ → ℚ) (delta : ℚ) (s : Snowflake) (g : Rng)
    (h : 0 ≤ s.scale) (hmax : s.scale ≤ 2147483047) :
    onScreen (updateBody sin2 delta s g).1 := by
  have h1 := respawned_onScreen (moved sin2 delta s) g (by rw [moved_scale]; exact h)
    (by rw [moved_scale]; exact hmax)
  exact h1

/-! ## The loop of update, index by index -/

theorem updateLoop_map_fixedPart (sin2 : ℚ → ℚ) (delta : ℚ) : ∀ (l : List Snowflake) (g : Rng),
    (updateLoop sin2 delta l g).1.map Snowflake.fixedPart = l.map Snowflake.fixedPart := by
  intro l
  induction l with
  | nil => intro g; rfl
  | cons s rest ih =>
    intro g
    simp only [updateLoop, List.map_cons, ih, updateBody_fixedPart]

theorem updateLoop_length (sin2 : ℚ → ℚ) (delta : ℚ) (l : List Snowflake) (g : Rng) :
    (updateLoop sin2 delta l g).1.length = l.length := by
  have h := congrArg List.length (updateLoop_map_fixedPart sin2 delta l g)
  simpa using h

theorem updateLoop_get (sin2 : ℚ → ℚ) (delta : ℚ) : ∀ (l : List Snowflake) (g : Rng)
    (i : Nat) (s : Snowflake), l[i]? = some s →
    ∃ g1 : Rng, g1.draws = g.draws ∧
      (updateLoop sin2 delta l g).1[i]? = some (updateBody sin2 delta s g1).1 := by
  intro l
  induction l with
  | nil => intro g i s h; simp at h
  | cons a rest ih =>
    intro g i s h
    cases i with
    | zero =>
      simp only [List.getElem?_cons_zero, Option.some.injEq] at h
      subst h
      exact ⟨g, rfl, by simp [updateLoop]⟩
    | succ j =>
      simp only [List.getElem?_cons_succ] at h
      obtain ⟨g1, hg1, hget⟩ := ih (updateBody sin2 delta a g).2 j s h
      refine ⟨g1, ?_, ?_⟩
      · rw [hg1]
        unfold updateBody respawned
        dsimp only
        split <;> rfl
      · simpa [updateLoop] using hget

theorem updateLoop_forall (sin2 : ℚ → ℚ) (delta : ℚ) (P : Snowflake → Prop)
    (hP : ∀ (s : Snowflake) (g : Rng), P s → P (updateBody sin2 delta s g).1) :
    ∀ (l : List Snowflake) (g : Rng), (∀ s ∈ l, P s) →
      ∀ s ∈ (updateLoop sin2 delta l g).1, P s := by
  intro l
  induction l with
  | nil => intro g _ s hs; simp [updateLoop] at hs
  | cons a rest ih =>
    intro g hl s hs
    simp only [updateLoop, List.mem_cons] at hs
    rcases hs with hs | hs
    · rw [hs]
      exact hP a g (hl a (List.mem_cons_self a rest))
    · exact ih _ (fun t ht => hl t (List.mem_cons_of_mem a ht)) s hs

theorem created_settled (g : Rng) (i : Nat) : Settled (created g i) := by
  obtain ⟨hx0, hx1, hy0, hy1, _, hs0, hs1, _, _⟩ := created_bounds g i
  have hs : 0 < intToFloat (created g i).scale := intToFloat_pos _ (by omega)
  refine ⟨hs0, hs1, ?_, ?_, ?_⟩ <;> linarith

theorem updateBody_settled (sin2 : ℚ → ℚ) (delta : ℚ) (s : Snowflake) (g : Rng)
    (h : Settled s) : Settled (updateBody sin2 delta s g).1 := by
  refine ⟨?_, ?_, updateBody_onScreen sin2 delta s g (by have := h.1; omega)
    (by have := h.2.1; omega)⟩
  · rw [updateBody_scale]
    exact h.1
  · rw [updateBody_scale]
    exact h.2.1

theorem reachable_settled (sin2 : ℚ → ℚ) (w : World) (h : Reachable sin2 w) :
    ∀ s ∈ w.snowflakes, Settled s := by
  induction h with
  | setup g =>
    intro s hs
    rw [setup_snowflakes, List.mem_map] at hs
    obtain ⟨i, _, rfl⟩ := hs
    exact created_settled g i
  | step ticks w _ ih =>
    exact updateLoop_forall sin2 (frameDelta ticks) Settled
      (updateBody_settled sin2 (frameDelta ticks)) w.snowflakes w.rng ih

theorem updateLoop_zero (sin2 : ℚ → ℚ) : ∀ (l : List Snowflake) (g : Rng),
    (∀ s ∈ l, ¬ offScreen s) → updateLoop sin2 0 l g = (l, g) := by
  intro l
  induction l with
  | nil => intro g _; rfl
  | cons a rest ih =>
    intro g hl
    have ha : updateBody sin2 0 a g = (a, g) := by
      unfold updateBody
      rw [moved_zero, respawned_of_not_offScreen a g (hl a (List.mem_cons_self a rest))]
      simp
    simp only [updateLoop, ha]
    rw [ih g (fun t ht => hl t (List.mem_cons_of_mem a ht))]

theorem updateLoop_zero_rotationAngle (sin2 : ℚ → ℚ) : ∀ (l : List Snowflake) (g : Rng),
    (updateLoop sin2 0 l g).1.map Snowflake.rotationAngle = l.map Snowflake.rotationAngle := by
  intro l
  induction l with
  | nil => intro g; rfl
  | cons a rest ih =>
    intro g
    simp only [updateLoop, List.map_cons, ih, updateBody_rotationAngle, mul_zero, add_zero]

theorem updateBody_of_offScreen (sin2 : ℚ → ℚ) (delta : ℚ) (s : Snowflake) (g : Rng)
    (h : offScreen (moved sin2 delta s)) :
    (updateBody sin2 delta s g).1.pos.y = intToFloat (wrapInt32 (s.scale + SCREEN_HEIGHT)) ∧
    0 ≤ (updateBody sin2 delta s g).1.pos.x ∧ (updateBody sin2 delta s g).1.pos.x < 800 ∧
    (updateBody sin2 delta s g).2 = ⟨g.draws, g.next + 1⟩ := by
  have h0 := tmod_natCast_nonneg (g.draws g.next) SCREEN_WIDTH
  have h1 : Int.tmod (g.draws g.next : Int) SCREEN_WIDTH < 800 :=
    tmod_natCast_lt (g.draws g.next) (b := SCREEN_WIDTH) (by decide)
  unfold updateBody
  rw [respawned_of_offScreen _ g h]
  dsimp only
  rw [moved_scale]
  refine ⟨rfl, ?_, ?_, rfl⟩
  · exact_mod_cast h0
  · exact_mod_cast h1

theorem respawn_height (scale : Int) (h0 : -16777816 < scale) (h1 : scale < 16776616) :
    intToFloat (wrapInt32 (scale + SCREEN_HEIGHT)) = (scale : ℚ) + 600 := by
  have hw : wrapInt32 (scale + SCREEN_HEIGHT) = scale + SCREEN_HEIGHT := by
    apply wrapInt32_eq <;> unfold SCREEN_HEIGHT <;> omega
  rw [hw, intToFloat_eq_cast _ (by unfold SCREEN_HEIGHT; omega) (by unfold SCREEN_HEIGHT; omega)]
  unfold SCREEN_HEIGHT
  push_cast
  rfl

theorem updateBody_of_not_offScreen (sin2 : ℚ → ℚ) (delta : ℚ) (s : Snowflake) (g : Rng)
    (h : ¬ offScreen (moved sin2 delta s)) :
    updateBody sin2 delta s g =
      ({ moved sin2 delta s with rotationAngle := s.rotationAngle + s.rotationSpeed * delta },
        g) := by
  unfold updateBody
  rw [respawned_of_not_offScreen _ g h]
  rfl

theorem snowflake_ext (s t : Snowflake) (h1 : s.pos = t.pos) (h2 : s.scale = t.scale)
    (h3 : s.rotationAngle = t.rotationAngle) (h4 : s.rotationSpeed = t.rotationSpeed)
    (h5 : s.textureCoords = t.textureCoords) : s = t := by
  cases s
  cases t
  simp_all

theorem update_get (sin2 : ℚ → ℚ) (delta : ℚ) (w : World) (i : Nat) (s : Snowflake)
    (h : w.snowflakes[i]? = some s) :
    ∃ g1 : Rng, g1.draws = w.rng.draws ∧
      (update sin2 delta w).snowflakes[i]? = some (updateBody sin2 delta s g1).1 :=
  updateLoop_get sin2 delta w.snowflakes w.rng i s h

/-! ## IEEE rounding is a valid rounding -/

theorem ieee_valid : Rounding.ieee.Valid := by
  refine ⟨fun x y h => roundBits_mono 23 h, roundBits_idem 23, ?_, ?_⟩
  · intro n h
    exact roundBits_intCast 23 n (by norm_num; exact h)
  · intro n h
    exact roundBits_intCast 52 n (le_trans h (by norm_num))

theorem exact_valid : Rounding.exact.Valid :=
  ⟨fun _ _ h => h, fun _ => rfl, fun _ _ => rfl, fun _ _ => rfl⟩

/-! ## Facts about update with rounding -/

theorem valid_fl_int (r : Rounding) (hr : r.Valid) (n : Int) (h : |n| ≤ 16777216) :
    r.fl (n : ℚ) = (n : ℚ) := hr.2.2.1 n h

theorem velYR_six_bounds (r : Rounding) (hr : r.Valid) :
    -250 ≤ velYR r 6 ∧ velYR r 6 ≤ -63 := by
  obtain ⟨hmono, _, hint, _⟩ := hr
  have f0 : r.fl 0 = 0 := by simpa using hint 0 (by norm_num)
  have f1 : r.fl 1 = 1 := by simpa using hint 1 (by norm_num)
  have f187 : r.fl (-187) = -187 := by simpa using hint (-187) (by norm_num)
  have f250 : r.fl (-250) = -250 := by simpa using hint (-250) (by norm_num)
  have f63 : r.fl (-63) = -63 := by simpa using hint (-63) (by norm_num)
  have e1 := intToFloat_two
  have e2 := intToFloat_maxScale
  have e3 := intToFloat_air
  unfold velYR GRAVITY
  rw [e1, e2, e3]
  dsimp only
  have hq0 : 0 ≤ r.fl (2 / 19) := by
    have := hmono 0 (2 / 19) (by norm_num)
    rwa [f0] at this
  have hq1 : r.fl (2 / 19) ≤ 1 := by
    have := hmono (2 / 19) 1 (by norm_num)
    rwa [f1] at this
  have ha0 : 0 ≤ r.fl (1 - r.fl (2 / 19)) := by
    have := hmono 0 (1 - r.fl (2 / 19)) (by linarith)
    rwa [f0] at this
  have ha1 : r.fl (1 - r.fl (2 / 19)) ≤ 1 := by
    have := hmono (1 - r.fl (2 / 19)) 1 (by linarith)
    rwa [f1] at this
  have hb0 : -187 ≤ r.fl (r.fl (1 - r.fl (2 / 19)) * -187) := by
    have := hmono (-187) (r.fl (1 - r.fl (2 / 19)) * -187) (by linarith)
    rwa [f187] at this
  have hb1 : r.fl (r.fl (1 - r.fl (2 / 19)) * -187) ≤ 0 := by
    have := hmono (r.fl (1 - r.fl (2 / 19)) * -187) 0 (by linarith)
    rwa [f0] at this
  constructor
  · have := hmono (-250) (-250 - r.fl (r.fl (1 - r.fl (2 / 19)) * -187)) (by linarith)
    rwa [f250] at this
  · have := hmono (-250 - r.fl (r.fl (1 - r.fl (2 / 19)) * -187)) (-63) (by linarith)
    rwa [f63] at this

theorem velYR_fl (r : Rounding) (hr : r.Valid) (scale : Int) :
    r.fl (velYR r scale) = velYR r scale := by
  unfold velYR
  exact hr.2.1 _

theorem movedR_scenario (r : Rounding) (hr : r.Valid) (sin2 : ℚ → ℚ) (h0 : sin2 0 = 0)
    (s : Snowflake) (hp : s.pos = ⟨400, 300, 0⟩) (hs : s.scale = 6)
    (ha : s.rotationAngle = 0) :
    (movedR r sin2 1 s).pos = ⟨400, r.fl (300 + velYR r 6), 0⟩ := by
  have hint := hr.2.2.1
  have hdl := hr.2.2.2
  have f0 : r.fl 0 = 0 := by simpa using hint 0 (by norm_num)
  have f400 : r.fl 400 = 400 := by simpa using hint 400 (by norm_num)
  have d0 : r.dl 0 = 0 := by simpa using hdl 0 (by norm_num)
  have d400 : r.dl 400 = 400 := by simpa using hdl 400 (by norm_num)
  unfold movedR fallVelocityR Vec3.addR Vec3.smulR GRAVITY
  simp only [hp, hs, ha, h0, mul_zero, zero_mul, one_mul, add_zero, zero_add, f0, d0, f400, d400,
    velYR_fl r hr]

theorem updateLoopR_get (r : Rounding) (sin2 : ℚ → ℚ) (delta : ℚ) :
    ∀ (l : List Snowflake) (g : Rng) (i : Nat) (s : Snowflake), l[i]? = some s →
    ∃ g1 : Rng, g1.draws = g.draws ∧
      (updateLoopR r sin2 delta l g).1[i]? = some (updateBodyR r sin2 delta s g1).1 := by
  intro l
  induction l with
  | nil => intro g i s h; simp at h
  | cons a rest ih =>
    intro g i s h
    cases i with
    | zero =>
      simp only [List.getElem?_cons_zero, Option.some.injEq] at h
      subst h
      exact ⟨g, rfl, by simp [updateLoopR]⟩
    | succ j =>
      simp only [List.getElem?_cons_succ] at h
      obtain ⟨g1, hg1, hget⟩ := ih (updateBodyR r sin2 delta a g).2 j s h
      refine ⟨g1, ?_, ?_⟩
      · rw [hg1]
        unfold updateBodyR respawnedR
        dsimp only
        split <;> rfl
      · simpa [updateLoopR] using hget

theorem updateR_get (r : Rounding) (sin2 : ℚ → ℚ) (delta : ℚ) (w : World) (i : Nat)
    (s : Snowflake) (h : w.snowflakes[i]? = some s) :
    ∃ g1 : Rng, g1.draws = w.rng.draws ∧
      (updateR r sin2 delta w).snowflakes[i]? = some (updateBodyR r sin2 delta s g1).1 :=
  updateLoopR_get r sin2 delta w.snowflakes w.rng i s h

theorem updateBodyR_of_not_offScreenR (r : Rounding) (sin2 : ℚ → ℚ) (delta : ℚ)
    (s : Snowflake) (g : Rng) (h : ¬ offScreenR r (movedR r sin2 delta s)) :
    updateBodyR r sin2 delta s g =
      ({ movedR r sin2 delta s with
          rotationAngle := r.fl (s.rotationAngle + r.fl (s.rotationSpeed * delta)) }, g) := by
  unfold updateBodyR respawnedR
  rw [if_neg h]
  rfl

theorem ieee_two_nineteenths : roundBits 23 (2 / 19) = 7064091 / 67108864 := by
  unfold roundBits
  rw [if_pos (by norm_num)]
  rw [roundPos_eval 23 (2 / 19) (-4) 14128182 (by norm_num) (by norm_num)
    (nearestEven_of_gt_half _ 14128181 (by norm_num) (by norm_num))]
  norm_num


theorem ieee_scenario_values :
    velYR Rounding.ieee 6 = -5418793 / 65536 ∧
    Rounding.ieee.fl (300 + velYR Rounding.ieee 6) = 14242007 / 65536 := by
  have e1 := intToFloat_two
  have e2 := intToFloat_maxScale
  have e3 := intToFloat_air
  have s2 : roundBits 23 (1 - 7064091 / 67108864) = 15011193 / 16777216 := by
    unfold roundBits
    rw [if_pos (by norm_num)]
    rw [roundPos_eval 23 _ (-1) 15011193 (by norm_num) (by norm_num)
      (nearestEven_of_lt_half _ 15011193 (by norm_num) (by norm_num))]
    norm_num
  have s3 : roundBits 23 (15011193 / 16777216 * -187) = -(10965207 / 65536) := by
    unfold roundBits
    rw [if_neg (by norm_num), if_pos (by norm_num)]
    rw [roundPos_eval 23 _ 7 10965207 (by norm_num) (by norm_num)
      (nearestEven_of_lt_half _ 10965207 (by norm_num) (by norm_num))]
    norm_num
  have s4 : roundBits 23 (-250 - -(10965207 / 65536)) = -5418793 / 65536 := by
    have h := (roundBits_dyadic 23 5418793 (-16) (by norm_num) (by norm_num)).2
    have e : (-250 : ℚ) - -(10965207 / 65536) = -(((5418793 : Nat) : ℚ) * 2 ^ (-16 : Int)) := by
      norm_num
    rw [e, h]
    norm_num
  have s5 : roundBits 23 (300 + -5418793 / 65536) = 14242007 / 65536 := by
    have h := (roundBits_dyadic 23 14242007 (-16) (by norm_num) (by norm_num)).1
    have e : (300 : ℚ) + -5418793 / 65536 = ((14242007 : Nat) : ℚ) * 2 ^ (-16 : Int) := by
      norm_num
    rw [e, h]
    norm_num
  have hv : velYR Rounding.ieee 6 = -5418793 / 65536 := by
    unfold velYR GRAVITY Rounding.ieee
    rw [e1, e2, e3]
    dsimp only
    rw [ieee_two_nineteenths, s2, s3, s4]
  refine ⟨hv, ?_⟩
  rw [hv]
  exact s5

/-! ## The two renderings of update agree when nothing is rounded -/

theorem velYR_exact (scale : Int) (h0 : -16777212 < scale) (h1 : scale < 16777220) :
    velYR Rounding.exact scale = velY scale := by
  have hw : wrapInt32 (scale - MIN_SNOWFLAKE_SCALE) = scale - MIN_SNOWFLAKE_SCALE := by
    apply wrapInt32_eq <;> unfold MIN_SNOWFLAKE_SCALE <;> omega
  have e1 : intToFloat (scale - MIN_SNOWFLAKE_SCALE) =
      ((scale - MIN_SNOWFLAKE_SCALE : Int) : ℚ) := by
    apply intToFloat_eq_cast <;> unfold MIN_SNOWFLAKE_SCALE <;> omega
  have e2 : intToFloat maxScale = ((maxScale : Int) : ℚ) := by
    rw [intToFloat_maxScale]
    norm_num [maxScale, NUM_SCALES]
  have e3 : intToFloat AIR_RESISTANCE_FACTOR = ((AIR_RESISTANCE_FACTOR : Int) : ℚ) := by
    rw [intToFloat_air, air_resistance_factor_eq]
    norm_num
  unfold velYR velY Rounding.exact
  rw [hw, e1, e2, e3]

theorem movedR_exact (sin2 : ℚ → ℚ) (delta : ℚ) (s : Snowflake) (h0 : -16777212 < s.scale)
    (h1 : s.scale < 16777220) : movedR Rounding.exact sin2 delta s = moved sin2 delta s := by
  unfold movedR moved fallVelocityR fallVelocity
  rw [velYR_exact s.scale h0 h1]
  rfl

theorem offScreenR_exact (s : Snowflake) : offScreenR Rounding.exact s ↔ offScreen s := by
  have e : intToFloat SCREEN_WIDTH = ((SCREEN_WIDTH : Int) : ℚ) := by
    rw [intToFloat_screen_width]
    norm_num [SCREEN_WIDTH]
  unfold offScreenR offScreen Rounding.exact
  rw [e]

theorem updateBodyR_exact (sin2 : ℚ → ℚ) (delta : ℚ) (s : Snowflake) (g : Rng)
    (h0 : -16777212 < s.scale) (h1 : s.scale < 16777220) :
    updateBodyR Rounding.exact sin2 delta s g = updateBody sin2 delta s g := by
  have hx0 := tmod_natCast_nonneg (g.draws g.next) SCREEN_WIDTH
  have hx1 : Int.tmod (g.draws g.next : Int) SCREEN_WIDTH < 800 :=
    tmod_natCast_lt (g.draws g.next) (b := SCREEN_WIDTH) (by decide)
  have ex : intToFloat (Int.tmod (rand g).1 SCREEN_WIDTH) =
      ((Int.tmod (rand g).1 SCREEN_WIDTH : Int) : ℚ) := by
    apply intToFloat_eq_cast
    · show -16777216 < Int.tmod (g.draws g.next : Int) SCREEN_WIDTH
      omega
    · show Int.tmod (g.draws g.next : Int) SCREEN_WIDTH < 16777216
      omega
  unfold updateBodyR updateBody respawnedR respawned
  rw [movedR_exact sin2 delta s h0 h1]
  by_cases h : offScreen (moved sin2 delta s)
  · rw [if_pos h, if_pos ((offScreenR_exact _).2 h), ex]
    rfl
  · rw [if_neg h, if_neg (fun hc => h ((offScreenR_exact _).1 hc))]
    rfl

/-! ## The claims -/

/-- C1 (bounds after setup). For every stream of values returned by `rand()`, `setupSnowflakes`
fills the empty vector with `NUM_SNOWFLAKES` snowflakes, and each of them has
`0 <= pos.x < 800`, `0 <= pos.y < 600`, `pos.z = 0`, `4 <= scale < 24`,
`|rotationSpeed| >= 5` and `rotationAngle = 0`. -/
theorem C1_setup_bounds (g : Rng) :
    (setupSnowflakes (World.start g)).snowflakes.length = NUM_SNOWFLAKES ∧
    ∀ i : Fin NUM_SNOWFLAKES, ∃ s : Snowflake,
      (setupSnowflakes (World.start g)).snowflakes[i.val]? = some s ∧
      0 ≤ s.pos.x ∧ s.pos.x < 800 ∧ 0 ≤ s.pos.y ∧ s.pos.y < 600 ∧ s.pos.z = 0 ∧
      4 ≤ s.scale ∧ s.scale < 24 ∧ 5 ≤ |s.rotationSpeed| ∧ s.rotationAngle = 0 :=
  ⟨setup_length g, fun i => ⟨created g i.val, setup_get g i.val i.isLt, created_bounds g i.val⟩⟩

/-- C6 (texture cell assignment). For every index `i < NUM_SNOWFLAKES`, the snowflake created at
index `i` stores the corner pairs of the atlas cell in column `(i mod 256) mod 16` and row
`(i mod 256) div 16`, in the order `(c/16, (r+1)/16), ((c+1)/16, (r+1)/16), ((c+1)/16, r/16),
(c/16, r/16)`; and whenever `i + 256 < NUM_SNOWFLAKES`, the snowflakes at `i` and `i + 256` have
the same `textureCoords`. -/
theorem C6_texture_cell (g : Rng) :
    (∀ i : Fin NUM_SNOWFLAKES, ∃ s : Snowflake,
      (setupSnowflakes (World.start g)).snowflakes[i.val]? = some s ∧
      s.textureCoords =
        [((i.val % 256 % 16 : Nat) : ℚ) / 16, (((i.val % 256 / 16 : Nat) : ℚ) + 1) / 16,
         (((i.val % 256 % 16 : Nat) : ℚ) + 1) / 16, (((i.val % 256 / 16 : Nat) : ℚ) + 1) / 16,
         (((i.val % 256 % 16 : Nat) : ℚ) + 1) / 16, ((i.val % 256 / 16 : Nat) : ℚ) / 16,
         ((i.val % 256 % 16 : Nat) : ℚ) / 16, ((i.val % 256 / 16 : Nat) : ℚ) / 16]) ∧
    (∀ i : Fin (NUM_SNOWFLAKES - 256), ∃ s t : Snowflake,
      (setupSnowflakes (World.start g)).snowflakes[i.val]? = some s ∧
      (setupSnowflakes (World.start g)).snowflakes[i.val + 256]? = some t ∧
      s.textureCoords = t.textureCoords) := by
  constructor
  · intro i
    exact ⟨created g i.val, setup_get g i.val i.isLt, created_textureCoords g i.val⟩
  · intro i
    have hi : i.val < NUM_SNOWFLAKES - 256 := i.isLt
    have h1 : i.val < NUM_SNOWFLAKES := by omega
    have h2 : i.val + 256 < NUM_SNOWFLAKES := by omega
    refine ⟨created g i.val, created g (i.val + 256), setup_get g _ h1, setup_get g _ h2, ?_⟩
    rw [created_textureCoords, created_textureCoords]
    have e : (i.val + 256) % 256 = i.val % 256 := by omega
    rw [e]

/-- C8 (size band selection). For every index `i < NUM_SNOWFLAKES`, with `roll` the fourth value
`rand()` returns in pass `i` taken mod 10: if `roll < 9` the scale of snowflake `i` is in
`[4, 14)`, otherwise it is in `[14, 24)`. And whatever the size draw, of the ten roll values
`0..9` exactly one, `9`, gives a scale `>= NUM_SCALES + MIN_SNOWFLAKE_SCALE = 14`. -/
theorem C8_size_band (g : Rng) :
    (∀ i : Fin NUM_SNOWFLAKES, ∃ s : Snowflake,
      (setupSnowflakes (World.start g)).snowflakes[i.val]? = some s ∧
      if Int.tmod (g.draws (g.next + 5 * i.val + 3) : Int) 10 < 9
      then MIN_SNOWFLAKE_SCALE ≤ s.scale ∧ s.scale < MIN_SNOWFLAKE_SCALE + NUM_SCALES
      else MIN_SNOWFLAKE_SCALE + NUM_SCALES ≤ s.scale ∧
        s.scale < MIN_SNOWFLAKE_SCALE + 2 * NUM_SCALES) ∧
    (∀ r : Nat, (List.range 10).filter
      (fun (roll : Nat) =>
        decide (NUM_SCALES + MIN_SNOWFLAKE_SCALE ≤ chooseScale (roll : Int) (r : Int))) = [9]) ∧
    MIN_SNOWFLAKE_SCALE = 4 ∧ NUM_SCALES = 10 := by
  refine ⟨?_, ?_, rfl, rfl⟩
  · intro i
    refine ⟨created g i.val, setup_get g i.val i.isLt, ?_⟩
    rw [created_scale]
    split
    · next h =>
      have := chooseScale_small _ (g.draws (g.next + 5 * i.val + 4)) h
      simp only [MIN_SNOWFLAKE_SCALE, NUM_SCALES]
      omega
    · next h =>
      have := chooseScale_large _ (g.draws (g.next + 5 * i.val + 4)) h
      simp only [MIN_SNOWFLAKE_SCALE, NUM_SCALES]
      omega
  · intro r
    have h0 := tmod_natCast_nonneg r 10
    have h1 := tmod_natCast_lt r (b := 10) (by decide)
    have hs : ∀ roll : Nat, Int.tmod (roll : Int) 10 < 9 →
        ¬ (NUM_SCALES + MIN_SNOWFLAKE_SCALE ≤ chooseScale (roll : Int) (r : Int)) := by
      intro roll h
      have := chooseScale_small roll r h
      simp only [MIN_SNOWFLAKE_SCALE, NUM_SCALES]
      omega
    have hl : ∀ roll : Nat, ¬ Int.tmod (roll : Int) 10 < 9 →
        (NUM_SCALES + MIN_SNOWFLAKE_SCALE ≤ chooseScale (roll : Int) (r : Int)) := by
      intro roll h
      have := chooseScale_large roll r h
      simp only [MIN_SNOWFLAKE_SCALE, NUM_SCALES]
      omega
    have e : List.range 10 = [0, 1, 2, 3, 4, 5, 6, 7, 8, 9] := by decide
    rw [e]
    simp only [List.filter]
    rw [decide_eq_false (hs 0 (by decide)), decide_eq_false (hs 1 (by decide)),
      decide_eq_false (hs 2 (by decide)), decide_eq_false (hs 3 (by decide)),
      decide_eq_false (hs 4 (by decide)), decide_eq_false (hs 5 (by decide)),
      decide_eq_false (hs 6 (by decide)), decide_eq_false (hs 7 (by decide)),
      decide_eq_false (hs 8 (by decide)), decide_eq_true (hl 9 (by decide))]

/-- C3 (immutability under update). For every sine function, every `deltaTime`, every vector of
snowflakes and every generator state, `update` returns a vector of the same length in which the
snowflake at each index has the same `scale`, `rotationSpeed` and `textureCoords` as the
snowflake at that index before the call. -/
theorem C3_update_immutable (sin2 : ℚ → ℚ) (delta : ℚ) (w : World) :
    (update sin2 delta w).snowflakes.length = w.snowflakes.length ∧
    ∀ i : Nat,
      ((update sin2 delta w).snowflakes[i]?).map
          (fun s => (s.scale, s.rotationSpeed, s.textureCoords)) =
        (w.snowflakes[i]?).map (fun s => (s.scale, s.rotationSpeed, s.textureCoords)) := by
  refine ⟨updateLoop_length sin2 delta w.snowflakes w.rng, fun i => ?_⟩
  have h := updateLoop_map_fixedPart sin2 delta w.snowflakes w.rng
  have h2 := congrArg (fun l => l[i]?) h
  simp only [List.getElem?_map] at h2
  exact h2

/-- C2 (respawn). If the snowflake at index `i` has `4 <= scale < 24` and
`pos.y = -scale - 1`, and `deltaTime >= 0`, then after `update` the snowflake at index `i` has
`pos.y = scale + 600` and `0 <= pos.x < 800`, and its `scale`, `rotationSpeed` and
`textureCoords` are unchanged; this for every `pos.x`, rotation state, sine function and
generator state. -/
theorem C2_respawn (sin2 : ℚ → ℚ) (delta : ℚ) (w : World) (i : Nat) (s : Snowflake)
    (hi : w.snowflakes[i]? = some s) (h4 : 4 ≤ s.scale) (h24 : s.scale < 24)
    (hy : s.pos.y = -(s.scale : ℚ) - 1) (hd : 0 ≤ delta) :
    ∃ t : Snowflake, (update sin2 delta w).snowflakes[i]? = some t ∧
      t.pos.y = (s.scale : ℚ) + 600 ∧ 0 ≤ t.pos.x ∧ t.pos.x < 800 ∧
      t.scale = s.scale ∧ t.rotationSpeed = s.rotationSpeed ∧
      t.textureCoords = s.textureCoords := by
  obtain ⟨g1, _, hget⟩ := update_get sin2 delta w i s hi
  have hv := velY_neg s.scale h4
  have hoff : offScreen (moved sin2 delta s) := by
    left
    rw [moved_pos_y, moved_scale, hy, intToFloat_eq_cast s.scale (by omega) (by omega)]
    have : delta * velY s.scale ≤ 0 := mul_nonpos_of_nonneg_of_nonpos hd (le_of_lt hv)
    linarith
  obtain ⟨e1, e2, e3, _⟩ := updateBody_of_offScreen sin2 delta s g1 hoff
  rw [respawn_height s.scale (by omega) (by omega)] at e1
  have hf := updateBody_fixedPart sin2 delta s g1
  exact ⟨_, hget, e1, e2, e3, congrArg (fun p => p.1) hf, congrArg (fun p => p.2.1) hf,
    congrArg (fun p => p.2.2) hf⟩

/-- Witness for C2: a snowflake of scale 4 at `pos.y = -5`, one second. -/
theorem C2_respawn_witness :
    ∃ t : Snowflake,
      (update (fun _ => 0) 1 ⟨[⟨⟨0, -5, 0⟩, 4, 0, 5, []⟩], Rng.ofList []⟩).snowflakes[0]? = some t ∧
      t.pos.y = ((4 : Int) : ℚ) + 600 ∧ 0 ≤ t.pos.x ∧ t.pos.x < 800 ∧
      t.scale = 4 ∧ t.rotationSpeed = 5 ∧ t.textureCoords = [] :=
  C2_respawn (fun _ => 0) 1 ⟨[⟨⟨0, -5, 0⟩, 4, 0, 5, []⟩], Rng.ofList []⟩ 0
    ⟨⟨0, -5, 0⟩, 4, 0, 5, []⟩ rfl (by decide) (by decide) (by norm_num) (by norm_num)

/-- C4 (smaller snowflakes fall more slowly). For two scales `a < b` in `[4, 24)` the vertical
velocity `update` computes for `a` is strictly less downward than the one for `b`, both are
negative, and for `scale = 23` the velocity is `GRAVITY.y = -250` exactly. -/
theorem C4_smaller_fall_slower (a b : Int) (ha : 4 ≤ a) (hab : a < b) (_hb : b < 24) :
    velY b < velY a ∧ velY a < 0 ∧ velY b < 0 ∧
    velY 23 = GRAVITY.y ∧ GRAVITY.y = -250 ∧
    (fallVelocity a).y = velY a ∧ (fallVelocity b).y = velY b := by
  have hq : (a : ℚ) < (b : ℚ) := by exact_mod_cast hab
  refine ⟨?_, velY_neg a ha, velY_neg b (by omega), ?_, rfl, rfl, rfl⟩
  · rw [velY_eq, velY_eq]
    linarith
  · rw [velY_eq]
    unfold GRAVITY
    norm_num

/-- Witness for C4: the smallest and the largest scale. -/
theorem C4_smaller_fall_slower_witness :
    velY 23 < velY 4 ∧ velY 4 < 0 ∧ velY 23 < 0 ∧
    velY 23 = GRAVITY.y ∧ GRAVITY.y = -250 ∧
    (fallVelocity 4).y = velY 4 ∧ (fallVelocity 23).y = velY 23 :=
  C4_smaller_fall_slower 4 23 (by decide) (by decide) (by decide)

/-- C10, as stated, fails for a scale above `INT_MAX - 600`: line 315 adds `scale + 600` in a
32-bit `int`. A snowflake with `scale = 2147483048 >= 0` at `pos = (0, -2147483648, 0)` is
respawned by `update(1)` to `pos.y = -2147483648`, and the test of line 313 is still true for
it after the call: `pos.y + scale > 0` does not hold. -/
theorem C10_on_screen_counterexample :
    ∃ t : Snowflake,
      (update (fun _ => 0) 1
        ⟨[⟨⟨0, -2147483648, 0⟩, 2147483048, 0, 5, []⟩], Rng.ofList []⟩).snowflakes[0]? =
          some t ∧
      0 ≤ t.scale ∧ t.scale = 2147483048 ∧ t.pos.y = -2147483648 ∧ offScreen t ∧
      ¬ (t.pos.y + intToFloat t.scale > 0) ∧ ¬ (t.pos.y + (t.scale : ℚ) > 0) := by
  have hget := update_get (fun _ => 0) 1
    ⟨[⟨⟨0, -2147483648, 0⟩, 2147483048, 0, 5, []⟩], Rng.ofList []⟩ 0
    ⟨⟨0, -2147483648, 0⟩, 2147483048, 0, 5, []⟩ rfl
  obtain ⟨g1, _, hget⟩ := hget
  have hf := intToFloat_2147483048
  have hv := velY_neg 2147483048 (by decide)
  have hoff : offScreen (moved (fun _ => 0) 1 ⟨⟨0, -2147483648, 0⟩, 2147483048, 0, 5, []⟩) := by
    left
    rw [moved_pos_y, moved_scale]
    dsimp only
    rw [hf]
    linarith
  obtain ⟨e1, _, _, _⟩ := updateBody_of_offScreen (fun _ => 0) 1
    ⟨⟨0, -2147483648, 0⟩, 2147483048, 0, 5, []⟩ g1 hoff
  have hw : intToFloat (wrapInt32 ((2147483048 : Int) + SCREEN_HEIGHT)) = -2147483648 := by
    have h1 : wrapInt32 ((2147483048 : Int) + SCREEN_HEIGHT) = -2147483648 := by decide
    rw [h1, intToFloat_int_min]
  have hs := updateBody_scale (fun _ => 0) 1 ⟨⟨0, -2147483648, 0⟩, 2147483048, 0, 5, []⟩ g1
  dsimp only at e1 hs
  rw [hw] at e1
  refine ⟨_, hget, ?_, hs, e1, ?_, ?_, ?_⟩
  · rw [hs]
    decide
  · left
    rw [e1, hs, hf]
    norm_num
  · rw [e1, hs, hf]
    norm_num
  · rw [e1, hs]
    norm_num

/-- C10, amended. For every sine function: (1) for every `deltaTime`, every state and every
snowflake of it with `0 <= scale <= 2147483047 = INT_MAX - 600`, after `update` the test of
line 313 is false for that snowflake: `pos.y + scale > 0`, `pos.x + scale >= 0` and
`pos.x - scale <= 800`, the scale converted to `float` as the test converts it; (2) the same
holds for each of the snowflakes `setupSnowflakes` creates; (3) so it holds for every snowflake
of every state the main loop can reach. -/
theorem C10_on_screen_amended (sin2 : ℚ → ℚ) :
    (∀ (delta : ℚ) (w : World) (i : Nat) (s : Snowflake),
      w.snowflakes[i]? = some s → 0 ≤ s.scale → s.scale ≤ 2147483047 →
      ∃ t : Snowflake, (update sin2 delta w).snowflakes[i]? = some t ∧ ¬ offScreen t ∧
        t.pos.y + intToFloat t.scale > 0 ∧ t.pos.x + intToFloat t.scale ≥ 0 ∧
        t.pos.x - intToFloat t.scale ≤ 800) ∧
    (∀ (g : Rng) (i : Fin NUM_SNOWFLAKES), ∃ s : Snowflake,
      (setupSnowflakes (World.start g)).snowflakes[i.val]? = some s ∧ ¬ offScreen s ∧
        s.pos.y + (s.scale : ℚ) > 0 ∧ s.pos.x + (s.scale : ℚ) ≥ 0 ∧
        s.pos.x - (s.scale : ℚ) ≤ 800) ∧
    (∀ w : World, Reachable sin2 w → ∀ s ∈ w.snowflakes, ¬ offScreen s ∧
        s.pos.y + (s.scale : ℚ) > 0 ∧ s.pos.x + (s.scale : ℚ) ≥ 0 ∧
        s.pos.x - (s.scale : ℚ) ≤ 800) := by
  refine ⟨?_, ?_, ?_⟩
  · intro delta w i s hi hs hmax
    obtain ⟨g1, _, hget⟩ := update_get sin2 delta w i s hi
    have h := updateBody_onScreen sin2 delta s g1 hs hmax
    exact ⟨_, hget, (onScreen_iff _).1 h, h⟩
  · intro g i
    have h := created_settled g i.val
    exact ⟨created g i.val, setup_get g i.val i.isLt, (onScreen_iff _).1 h.2.2,
      (onScreen_iff_cast _ (by have := h.1; omega) (by have := h.2.1; omega)).1 h.2.2⟩
  · intro w hw s hs
    have h := reachable_settled sin2 w hw s hs
    exact ⟨(onScreen_iff _).1 h.2.2,
      (onScreen_iff_cast _ (by have := h.1; omega) (by have := h.2.1; omega)).1 h.2.2⟩

/-- Witness for C10 amended: part (1) at a snowflake far off screen with the largest scale
allowed, part (3) at the first snowflake of the state right after setup. -/
theorem C10_on_screen_amended_witness :
    (∃ t : Snowflake,
      (update (fun _ => 0) 1
        ⟨[⟨⟨-50, -70, 0⟩, 2147483047, 0, 5, []⟩], Rng.ofList [7]⟩).snowflakes[0]? = some t ∧
        ¬ offScreen t ∧
        t.pos.y + intToFloat t.scale > 0 ∧ t.pos.x + intToFloat t.scale ≥ 0 ∧
        t.pos.x - intToFloat t.scale ≤ 800) ∧
    (¬ offScreen (created (Rng.ofList []) 0) ∧
      (created (Rng.ofList []) 0).pos.y + ((created (Rng.ofList []) 0).scale : ℚ) > 0 ∧
      (created (Rng.ofList []) 0).pos.x + ((created (Rng.ofList []) 0).scale : ℚ) ≥ 0 ∧
      (created (Rng.ofList []) 0).pos.x - ((created (Rng.ofList []) 0).scale : ℚ) ≤ 800) :=
  ⟨(C10_on_screen_amended (fun _ => 0)).1 1
      ⟨[⟨⟨-50, -70, 0⟩, 2147483047, 0, 5, []⟩], Rng.ofList [7]⟩ 0
      ⟨⟨-50, -70, 0⟩, 2147483047, 0, 5, []⟩ rfl (by decide) (by decide),
    (C10_on_screen_amended (fun _ => 0)).2.2 (setupSnowflakes (World.start (Rng.ofList [])))
      (Reachable.setup (Rng.ofList [])) (created (Rng.ofList []) 0)
      (by
        rw [setup_snowflakes]
        exact List.mem_map.2 ⟨0, by simp [NUM_SNOWFLAKES], rfl⟩)⟩

/-- C5, as stated, fails: a snowflake that is below the bottom edge (`pos.y = -10`, `scale = 4`)
is respawned by `update(0)`, so its position changes from `(0, -10, 0)` to `(0, 604, 0)`. -/
theorem C5_zero_time_counterexample :
    (update (fun _ => 0) 0 ⟨[⟨⟨0, -10, 0⟩, 4, 0, 5, []⟩], Rng.ofList []⟩).snowflakes.map
        Snowflake.pos = [⟨0, 604, 0⟩] ∧
    (update (fun _ => 0) 0 ⟨[⟨⟨0, -10, 0⟩, 4, 0, 5, []⟩], Rng.ofList []⟩).snowflakes.map
        Snowflake.pos ≠
      (World.mk [⟨⟨0, -10, 0⟩, 4, 0, 5, []⟩] (Rng.ofList [])).snowflakes.map Snowflake.pos := by
  have hoff : offScreen (moved (fun _ => 0) 0 ⟨⟨0, -10, 0⟩, 4, 0, 5, []⟩) := by
    rw [moved_zero]
    left
    dsimp only
    rw [intToFloat_eq_cast 4 (by decide) (by decide)]
    norm_num
  have hh : intToFloat (wrapInt32 ((4 : Int) + SCREEN_HEIGHT)) = 604 := by
    rw [respawn_height 4 (by decide) (by decide)]
    norm_num
  have e : (update (fun _ => 0) 0 ⟨[⟨⟨0, -10, 0⟩, 4, 0, 5, []⟩], Rng.ofList []⟩).snowflakes.map
      Snowflake.pos = [⟨0, 604, 0⟩] := by
    simp only [update, updateLoop, List.map_cons, List.map_nil, updateBody_pos]
    rw [respawned_of_offScreen _ _ hoff, moved_zero]
    dsimp only
    rw [hh]
    simp [Rng.ofList, SCREEN_WIDTH]
  refine ⟨e, ?_⟩
  rw [e]
  norm_num

/-- C5, amended. For every vector of snowflakes and every snowflake in it, `update(0)` leaves
the `rotationAngle` unchanged, and leaves the `pos` unchanged when the test of line 313 is
false for that snowflake before the call, whatever the other snowflakes are. -/
theorem C5_zero_time_amended (sin2 : ℚ → ℚ) (w : World) (i : Nat) (s : Snowflake)
    (hi : w.snowflakes[i]? = some s) :
    ∃ t : Snowflake, (update sin2 0 w).snowflakes[i]? = some t ∧
      t.rotationAngle = s.rotationAngle ∧ (¬ offScreen s → t.pos = s.pos) := by
  obtain ⟨g1, _, hget⟩ := update_get sin2 0 w i s hi
  refine ⟨_, hget, ?_, ?_⟩
  · rw [updateBody_rotationAngle]
    ring
  · intro hon
    rw [updateBody_pos, moved_zero, respawned_of_not_offScreen s g1 hon]

/-- Witness for C5 amended: the second of two snowflakes is on screen, the first is not. -/
theorem C5_zero_time_amended_witness :
    ∃ t : Snowflake,
      (update (fun _ => 0) 0
        ⟨[⟨⟨0, -10, 0⟩, 4, 0, 5, []⟩, ⟨⟨400, 300, 0⟩, 6, 45, 15, []⟩],
          Rng.ofList []⟩).snowflakes[1]? = some t ∧
      t.rotationAngle = 45 ∧ t.pos = ⟨400, 300, 0⟩ := by
  obtain ⟨t, h1, h2, h3⟩ := C5_zero_time_amended (fun _ => 0)
    ⟨[⟨⟨0, -10, 0⟩, 4, 0, 5, []⟩, ⟨⟨400, 300, 0⟩, 6, 45, 15, []⟩], Rng.ofList []⟩ 1
    ⟨⟨400, 300, 0⟩, 6, 45, 15, []⟩ rfl
  refine ⟨t, h1, h2, h3 ?_⟩
  apply (onScreen_iff _).1
  rw [onScreen_iff_cast _ (by decide) (by decide)]
  norm_num

/-- C9, on the code. The constant `AIR_RESISTANCE_FACTOR` is the integer `-187`, not `-187.5`:
the float `3 * GRAVITY.y / 4 = -187.5` is stored in a `const int`. So the velocity `update`
uses is `-250 + 187 * (1 - (s - 4)/19)`, a snowflake of scale 4 falls at `-63`, not `-62.5`,
and in one second, without respawn, it moves from `pos.y = 300` to `237`, not `237.5`. The
vertical displacement by lines 308-310 is `deltaTime` times that velocity. -/
theorem C9_drag_coefficient_truncated :
    3 * GRAVITY.y / 4 = -375 / 2 ∧ AIR_RESISTANCE_FACTOR = -187 ∧
    (∀ s : Int, velY s = -250 + 187 * (1 - ((s : ℚ) - 4) / 19)) ∧
    velY 4 = -63 ∧ velY 4 ≠ -125 / 2 ∧
    (∀ g : Rng, updateBody (fun _ => 0) 1 ⟨⟨400, 300, 0⟩, 4, 0, 15, []⟩ g =
      (⟨⟨400, 237, 0⟩, 4, 15, 15, []⟩, g)) ∧
    (∀ (sin2 : ℚ → ℚ) (delta : ℚ) (s : Snowflake),
      (moved sin2 delta s).pos.y = s.pos.y + delta * velY s.scale) := by
  have h4 : velY 4 = -63 := by
    rw [velY_eq]
    norm_num
  refine ⟨by unfold GRAVITY; norm_num, air_resistance_factor_eq, velY_eq, h4, ?_, ?_,
    moved_pos_y⟩
  · rw [h4]
    norm_num
  · intro g
    have hon : ¬ offScreen (moved (fun _ => 0) 1 ⟨⟨400, 300, 0⟩, 4, 0, 15, []⟩) := by
      apply (onScreen_iff _).1
      rw [onScreen_iff_cast _ (by rw [moved_scale]; decide) (by rw [moved_scale]; decide),
        moved_pos_y, moved_pos_x, moved_scale]
      dsimp only
      rw [h4]
      norm_num
    rw [updateBody_of_not_offScreen _ _ _ _ hon]
    congr 1
    apply snowflake_ext
    · show (moved (fun _ => 0) 1 ⟨⟨400, 300, 0⟩, 4, 0, 15, []⟩).pos = ⟨400, 237, 0⟩
      unfold moved fallVelocity Vec3.add Vec3.smul
      dsimp only
      rw [h4]
      unfold GRAVITY
      norm_num
    · rfl
    · show (0 : ℚ) + 15 * 1 = 15
      norm_num
    · rfl
    · rfl


/-- C7 (end-to-end scenario). When the first five values of `rand()` give `x = 400`, `y = 300`,
raw rotation speed `10`, band roll `5` and raw size `2`, the snowflake created at index 0 has
`pos = (400, 300, 0)`, `rotationSpeed = 15`, `scale = MIN_SNOWFLAKE_SCALE + 2 = 6`,
`rotationAngle = 0` and the texture region of atlas cell `(0, 0)`. With `sin 0 = 0` and every
floating-point operation rounded (by any rounding that is monotone, keeps floats, and keeps
the integers up to `2^24`), a following `update(1)` does not respawn it (the test of line 313
is false after the move), leaves `pos.x = 400`, stores in `pos.y` the sum of `300` and the
velocity computed for scale 6, which is negative, so that `pos.y < 300`, and sets
`rotationAngle = 15`. -/
theorem C7_end_to_end (r : Rounding) (hr : r.Valid) (sin2 : ℚ → ℚ) (g : Rng)
    (h0 : sin2 0 = 0)
    (hx : Int.tmod (g.draws g.next : Int) SCREEN_WIDTH = 400)
    (hy : Int.tmod (g.draws (g.next + 1) : Int) SCREEN_HEIGHT = 300)
    (hrot : Int.tmod (g.draws (g.next + 2) : Int) 41 - 20 = 10)
    (hroll : Int.tmod (g.draws (g.next + 3) : Int) 10 = 5)
    (hsize : Int.tmod (g.draws (g.next + 4) : Int) NUM_SCALES = 2) :
    ∃ s t : Snowflake,
      (setupSnowflakes (World.start g)).snowflakes[0]? = some s ∧
      s.pos = ⟨400, 300, 0⟩ ∧ s.rotationSpeed = 15 ∧
      s.scale = MIN_SNOWFLAKE_SCALE + 2 ∧ s.scale = 6 ∧ s.rotationAngle = 0 ∧
      s.textureCoords = [0, 1 / 16, 1 / 16, 1 / 16, 1 / 16, 0, 0, 0] ∧
      (updateR r sin2 1 (setupSnowflakes (World.start g))).snowflakes[0]? = some t ∧
      ¬ offScreenR r (movedR r sin2 1 s) ∧
      t.pos.x = 400 ∧ t.pos.y = r.fl (300 + r.fl (1 * velYR r 6)) ∧
      t.pos.y = r.fl (300 + velYR r 6) ∧ velYR r 6 < 0 ∧ t.pos.y < 300 ∧ t.pos.z = 0 ∧
      t.rotationAngle = 15 ∧
      t.scale = 6 ∧ t.rotationSpeed = 15 ∧ t.textureCoords = s.textureCoords := by
  have hpos : (created g 0).pos = ⟨400, 300, 0⟩ := by
    rw [created_pos]
    simp only [Nat.mul_zero, Nat.add_zero, Nat.zero_add, hx, hy]
    norm_num
  have hspeed : (created g 0).rotationSpeed = 15 := by
    rw [created_rotationSpeed]
    simp only [Nat.mul_zero, Nat.add_zero, biasedRotationSpeed, hrot, MIN_ROTATE_SPEED]
    norm_num
  have hscale : (created g 0).scale = 6 := by
    rw [created_scale]
    simp only [Nat.mul_zero, Nat.add_zero, chooseScale, hroll, hsize, MIN_SNOWFLAKE_SCALE]
    norm_num
  have htex : (created g 0).textureCoords = [0, 1 / 16, 1 / 16, 1 / 16, 1 / 16, 0, 0, 0] := by
    rw [created_textureCoords]
    simp [atlasCell]
  have hmono := hr.1
  have hint := hr.2.2.1
  have f50 : r.fl 50 = 50 := by simpa using hint 50 (by norm_num)
  have f56 : r.fl 56 = 56 := by simpa using hint 56 (by norm_num)
  have f237 : r.fl 237 = 237 := by simpa using hint 237 (by norm_num)
  have f406 : r.fl 406 = 406 := by simpa using hint 406 (by norm_num)
  have f394 : r.fl 394 = 394 := by simpa using hint 394 (by norm_num)
  have f15 : r.fl 15 = 15 := by simpa using hint 15 (by norm_num)
  obtain ⟨hv0, hv1⟩ := velYR_six_bounds r hr
  have hm := movedR_scenario r hr sin2 h0 (created g 0) hpos hscale (created_rotationAngle g 0)
  have hy0 : 50 ≤ r.fl (300 + velYR r 6) := by
    have := hmono 50 (300 + velYR r 6) (by linarith)
    rwa [f50] at this
  have hy1 : r.fl (300 + velYR r 6) ≤ 237 := by
    have := hmono (300 + velYR r 6) 237 (by linarith)
    rwa [f237] at this
  have hms : (movedR r sin2 1 (created g 0)).scale = 6 := hscale
  have e6 : intToFloat 6 = 6 := by
    rw [intToFloat_eq_cast 6 (by decide) (by decide)]
    norm_num
  have e800 := intToFloat_screen_width
  have hon : ¬ offScreenR r (movedR r sin2 1 (created g 0)) := by
    unfold offScreenR
    rw [hm, hms, e6, e800]
    dsimp only
    have h1 : 56 ≤ r.fl (r.fl (300 + velYR r 6) + 6) := by
      have := hmono 56 (r.fl (300 + velYR r 6) + 6) (by linarith)
      rwa [f56] at this
    have h2 : r.fl (400 + 6) = 406 := by norm_num [f406]
    have h3 : r.fl (400 - 6) = 394 := by norm_num [f394]
    rw [h2, h3]
    rintro (h | h | h) <;> linarith
  obtain ⟨g1, _, hget⟩ := updateR_get r sin2 1 (setupSnowflakes (World.start g)) 0
    (created g 0) (setup_get g 0 (by decide))
  rw [updateBodyR_of_not_offScreenR _ _ _ _ _ hon] at hget
  refine ⟨created g 0, _, setup_get g 0 (by decide), hpos, hspeed, ?_, hscale,
    created_rotationAngle g 0, htex, hget, hon, ?_, ?_, ?_, by linarith, ?_, ?_, ?_,
    hscale, hspeed, rfl⟩
  · rw [hscale]
    rfl
  · show (movedR r sin2 1 (created g 0)).pos.x = 400
    rw [hm]
  · show (movedR r sin2 1 (created g 0)).pos.y = r.fl (300 + r.fl (1 * velYR r 6))
    rw [hm, one_mul, velYR_fl r hr]
  · show (movedR r sin2 1 (created g 0)).pos.y = r.fl (300 + velYR r 6)
    rw [hm]
  · show (movedR r sin2 1 (created g 0)).pos.y < 300
    rw [hm]
    dsimp only
    linarith
  · show (movedR r sin2 1 (created g 0)).pos.z = 0
    rw [hm]
  · show r.fl ((created g 0).rotationAngle + r.fl ((created g 0).rotationSpeed * 1)) = 15
    rw [created_rotationAngle, hspeed, mul_one, f15, zero_add, f15]

/-- Witness for C7: `rand()` returns 400, 300, 30, 5, 2, the sine function is zero, and the
arithmetic is IEEE `float` and `double` arithmetic. The velocity computed for scale 6 is then
`-5418793 / 65536 = -82.68421936...` and the value stored in `pos.y` is
`14242007 / 65536 = 217.31578063...`. -/
theorem C7_end_to_end_witness :
    ∃ s t : Snowflake,
      (setupSnowflakes (World.start (Rng.ofList [400, 300, 30, 5, 2]))).snowflakes[0]? = some s ∧
      s.pos = ⟨400, 300, 0⟩ ∧ s.rotationSpeed = 15 ∧
      s.scale = MIN_SNOWFLAKE_SCALE + 2 ∧ s.scale = 6 ∧ s.rotationAngle = 0 ∧
      s.textureCoords = [0, 1 / 16, 1 / 16, 1 / 16, 1 / 16, 0, 0, 0] ∧
      (updateR Rounding.ieee (fun _ => 0) 1
        (setupSnowflakes (World.start (Rng.ofList [400, 300, 30, 5, 2])))).snowflakes[0]? =
          some t ∧
      ¬ offScreenR Rounding.ieee (movedR Rounding.ieee (fun _ => 0) 1 s) ∧
      t.pos.x = 400 ∧
      t.pos.y = Rounding.ieee.fl (300 + Rounding.ieee.fl (1 * velYR Rounding.ieee 6)) ∧
      t.pos.y = Rounding.ieee.fl (300 + velYR Rounding.ieee 6) ∧
      velYR Rounding.ieee 6 < 0 ∧ t.pos.y < 300 ∧ t.pos.z = 0 ∧
      t.rotationAngle = 15 ∧
      t.scale = 6 ∧ t.rotationSpeed = 15 ∧ t.textureCoords = s.textureCoords ∧
      velYR Rounding.ieee 6 = -5418793 / 65536 ∧ t.pos.y = 14242007 / 65536 := by
  obtain ⟨s, t, h1, h2, h3, h4, h5, h6, h7, h8, h9, h10, h11, h12, h13, h14, h15, h16, h17,
    h18, h19⟩ := C7_end_to_end Rounding.ieee ieee_valid (fun _ => 0)
      (Rng.ofList [400, 300, 30, 5, 2]) rfl (by decide) (by decide) (by decide) (by decide)
      (by decide)
  exact ⟨s, t, h1, h2, h3, h4, h5, h6, h7, h8, h9, h10, h11, h12, h13, h14, h15, h16, h17,
    h18, h19, ieee_scenario_values.1, by rw [h12]; exact ieee_scenario_values.2⟩

end Snowflakes
